import Mathlib

/-!
Verification model of the Academix multi-source book ingestion pipeline
found in src/server/src/services/scraperService.ts.  The TypeScript code is
translated into executable Lean definitions: the relational store becomes an
explicit record of tables, each SQL statement becomes a pure operation on
that record, and JavaScript truthiness is modelled explicitly wherever the
code relies on it.  Fallible external effects (network fetches, transaction
commits, statement-level database errors) are modelled as explicit
injection parameters so that the error-handling paths of the code can be
exercised.
-/

namespace Scraper

/-! ### JavaScript value helpers -/

/-- Truthiness of an optional string: undefined and the empty string are
falsy, every other string is truthy. -/
def strTruthy : Option String → Bool
  | none => false
  | some s => s != ""

/-- Truthiness of an optional number: undefined and 0 are falsy. -/
def intTruthy : Option Int → Bool
  | none => false
  | some n => n != 0

/-- The expression a OR b where a is an optional string and b is a string
literal, as in the title defaulting of the adapters: a falsy left operand
(undefined or empty) selects the right operand. -/
def jsOrStr (a : Option String) (b : String) : String :=
  match a with
  | none => b
  | some s => if s = "" then b else s

/-- The expression a OR b on two optional strings. -/
def jsOrOpt (a b : Option String) : Option String :=
  if strTruthy a then a else b

/-! ### Text and value normalizers (scraperService.ts lines 70 to 82) -/

/-- The JavaScript string trim: drop leading and trailing whitespace.  It
is defined over the character list so that it evaluates by kernel
reduction. -/
def jsTrim (s : String) : String :=
  String.mk
    (((s.toList.dropWhile Char.isWhitespace).reverse.dropWhile
        Char.isWhitespace).reverse)

/-- One pass of the global regex replacement of whitespace runs by a single
space; the Boolean flag records whether the previous character was
whitespace. -/
def collapseWsAux : Bool → List Char → List Char
  | _, [] => []
  | prevWs, c :: rest =>
    if c.isWhitespace then
      (if prevWs then [] else [' ']) ++ collapseWsAux true rest
    else
      c :: collapseWsAux false rest

/-- cleanText (lines 70 to 73): a falsy input (undefined or empty) gives
undefined, otherwise the input is trimmed and internal whitespace runs are
collapsed to single spaces. -/
def cleanText : Option String → Option String
  | none => none
  | some s =>
    if s = "" then none
    else some (String.mk (collapseWsAux false (jsTrim s).toList))

/-- Four consecutive digit characters starting at index i of the character
list. -/
def windowAt (cs : List Char) (i : Nat) : Bool :=
  ((cs.drop i).take 4).length == 4 && ((cs.drop i).take 4).all Char.isDigit

/-- The first match of the digit-quadruple regex: the earliest suffix whose
first four characters are all digits, returned as those four characters. -/
def firstFourDigitWindow : List Char → Option (List Char)
  | [] => none
  | c :: rest =>
    if windowAt (c :: rest) 0 then some ((c :: rest).take 4)
    else firstFourDigitWindow rest

/-- parseInt on a list of decimal digit characters. -/
def digitsToNat (cs : List Char) : Nat :=
  cs.foldl (fun a c => a * 10 + (c.toNat - '0'.toNat)) 0

/-- extractYear (lines 78 to 82): a falsy input gives undefined; otherwise
the first match of the digit-quadruple regex in the string is parsed as an
integer, and undefined is returned when there is no match. -/
def extractYear : Option String → Option Int
  | none => none
  | some s =>
    if s = "" then none
    else (firstFourDigitWindow s.toList).map (fun w => (digitsToNat w : Int))

/-! ### Characterisation of the year extractor -/

lemma windowAt_nil (i : Nat) : windowAt [] i = false := by
  simp [windowAt]

lemma windowAt_cons_succ (c : Char) (rest : List Char) (j : Nat) :
    windowAt (c :: rest) (j + 1) = windowAt rest j := by
  simp [windowAt, List.drop_succ_cons]

lemma ffw_eq_some_iff (cs w : List Char) :
    firstFourDigitWindow cs = some w ↔
      ∃ i, windowAt cs i = true ∧ (∀ j, j < i → windowAt cs j = false) ∧
        w = (cs.drop i).take 4 := by
  induction cs with
  | nil =>
    simp only [firstFourDigitWindow]
    constructor
    · intro h; cases h
    · rintro ⟨i, hi, -, -⟩
      rw [windowAt_nil] at hi; cases hi
  | cons c rest ih =>
    rw [firstFourDigitWindow]
    by_cases h0 : windowAt (c :: rest) 0 = true
    · rw [if_pos h0]
      constructor
      · intro h
        refine ⟨0, h0, by omega, ?_⟩
        injection h with h
        simpa using h.symm
      · rintro ⟨i, hi, hmin, hw⟩
        have hi0 : i = 0 := by
          by_contra hne
          have : windowAt (c :: rest) 0 = false := hmin 0 (by omega)
          rw [h0] at this; cases this
        subst hi0
        simpa using congrArg some hw.symm
    · rw [if_neg (by simpa using h0)]
      have h0f : windowAt (c :: rest) 0 = false := by
        cases hb : windowAt (c :: rest) 0
        · rfl
        · exact absurd hb h0
      rw [ih]
      constructor
      · rintro ⟨i, hi, hmin, hw⟩
        refine ⟨i + 1, by rwa [windowAt_cons_succ], ?_, by simpa [List.drop_succ_cons] using hw⟩
        intro j hj
        cases j with
        | zero => exact h0f
        | succ k => rw [windowAt_cons_succ]; exact hmin k (by omega)
      · rintro ⟨i, hi, hmin, hw⟩
        cases i with
        | zero => rw [h0f] at hi; cases hi
        | succ k =>
          rw [windowAt_cons_succ] at hi
          refine ⟨k, hi, ?_, by simpa [List.drop_succ_cons] using hw⟩
          intro j hj
          have := hmin (j + 1) (by omega)
          rwa [windowAt_cons_succ] at this

lemma ffw_eq_none_iff (cs : List Char) :
    firstFourDigitWindow cs = none ↔ ∀ i, windowAt cs i = false := by
  induction cs with
  | nil =>
    constructor
    · intro _ i; exact windowAt_nil i
    · intro _; rfl
  | cons c rest ih =>
    rw [firstFourDigitWindow]
    by_cases h0 : windowAt (c :: rest) 0 = true
    · rw [if_pos h0]
      constructor
      · intro h; cases h
      · intro h
        rw [h 0] at h0; cases h0
    · rw [if_neg (by simpa using h0)]
      have h0f : windowAt (c :: rest) 0 = false := by
        cases hb : windowAt (c :: rest) 0
        · rfl
        · exact absurd hb h0
      rw [ih]
      constructor
      · intro h i
        cases i with
        | zero => exact h0f
        | succ k => rw [windowAt_cons_succ]; exact h k
      · intro h i
        have := h (i + 1)
        rwa [windowAt_cons_succ] at this

/-- C9: extractYear returns the integer value of the first run of four
consecutive digits of its input (the first match of the digit-quadruple
regex, taking exactly four digits even when the digit run continues), and
returns undefined when the input is missing or has no four consecutive
digits; in particular on the five-digit string 12345 it returns 1234. -/
theorem extractYear_first_four_digit_run :
    (extractYear none = none) ∧
    (∀ (s : String) (n : Int), extractYear (some s) = some n ↔
      ∃ i, windowAt s.toList i = true ∧ (∀ j, j < i → windowAt s.toList j = false) ∧
        n = (digitsToNat ((s.toList.drop i).take 4) : Int)) ∧
    (∀ s : String, extractYear (some s) = none ↔ ∀ i, windowAt s.toList i = false) ∧
    (extractYear (some "12345") = some 1234) := by
  refine ⟨rfl, ?_, ?_, by decide⟩
  · intro s n
    by_cases hs : s = ""
    · subst hs
      constructor
      · intro h; cases h
      · rintro ⟨i, hi, -, -⟩
        have : windowAt "".toList i = false := windowAt_nil i
        rw [this] at hi; cases hi
    · rw [extractYear, if_neg hs]
      constructor
      · intro h
        rcases Option.map_eq_some'.mp h with ⟨w, hw, hn⟩
        rcases (ffw_eq_some_iff s.toList w).mp hw with ⟨i, hi, hmin, hweq⟩
        exact ⟨i, hi, hmin, by rw [← hn, hweq]⟩
      · rintro ⟨i, hi, hmin, hn⟩
        have : firstFourDigitWindow s.toList = some ((s.toList.drop i).take 4) :=
          (ffw_eq_some_iff s.toList _).mpr ⟨i, hi, hmin, rfl⟩
        rw [this]
        simpa using hn.symm
  · intro s
    by_cases hs : s = ""
    · subst hs
      simp only [extractYear, if_pos rfl]
      exact ⟨fun _ i => windowAt_nil i, fun _ => rfl⟩
    · rw [extractYear, if_neg hs]
      rw [Option.map_eq_none']
      exact ffw_eq_none_iff s.toList

/-- Witness for the year extractor characterisation: on the string a2020b
the first (and only) digit quadruple starts at index 1 and has value 2020. -/
theorem extractYear_first_four_digit_run_witness :
    extractYear (some "a2020b") = some 2020 := by
  refine (extractYear_first_four_digit_run.2.1 "a2020b" 2020).mpr ⟨1, by decide, ?_, by decide⟩
  intro j hj
  have hj0 : j = 0 := by omega
  subst hj0
  decide

/-! ### Data model

Rows of the tables touched by saveBooks.  Timestamps are modelled by a
natural-number clock: CURRENT_TIMESTAMP is constant for the duration of one
transaction, so the whole batch uses the single clock value stored in the
database state. -/

structure BookRow where
  book_id : Nat
  title : String
  subtitle : Option String
  isbn : Option String
  publication_year : Option Int
  publisher : Option String
  pages : Option Int
  language : String
  description : Option String
  cover_image_url : Option String
  source_id : Nat
  source_url : Option String
  pdf_url : Option String
  download_url : Option String
  scraped_at : Nat
  last_updated : Nat
deriving DecidableEq, Repr

/-- A normalized candidate record produced by an adapter (the ScrapedBook
interface, scraperService.ts lines 9 to 24). -/
structure ScrapedBook where
  title : String
  subtitle : Option String := none
  isbn : Option String := none
  publication_year : Option Int := none
  publisher : Option String := none
  pages : Option Int := none
  language : Option String := none
  description : Option String := none
  cover_image_url : Option String := none
  source_url : Option String := none
  authors : List String := []
  categories : List String := []
  pdf_url : Option String := none
  download_url : Option String := none
deriving DecidableEq, Repr

/-- The database state: the tables the service reads and writes.  The
authors and categories tables are association lists from id to unique name;
book_authors rows are (book_id, author_id, author_position) and
book_categories rows are (book_id, category_id).  The sources table keeps
only the last_scraped column, the single column saveBooks writes. -/
structure DB where
  books : List BookRow
  nextBookId : Nat
  authors : List (Nat × String)
  nextAuthorId : Nat
  bookAuthors : List (Nat × Nat × Nat)
  categories : List (Nat × String)
  nextCategoryId : Nat
  bookCategories : List (Nat × Nat)
  sources : List (Nat × Option Nat)
  now : Nat
deriving DecidableEq, Repr

/-! ### Catalog repository operations (the SQL statements of saveBooks) -/

/-- Rule 1 of the lookup cascade (lines 631 to 637): the isbn query, issued
only when the candidate isbn is truthy; a SELECT returns the first matching
row in table order. -/
def findByIsbn (books : List BookRow) (b : ScrapedBook) : Option BookRow :=
  if strTruthy b.isbn then books.find? (fun bk => bk.isbn == b.isbn) else none

/-- Rule 2 of the lookup cascade (lines 640 to 646): the title plus
publication-year query, issued only when both candidate fields are
truthy. -/
def findByTitleYear (books : List BookRow) (b : ScrapedBook) : Option BookRow :=
  if (b.title != "") && intTruthy b.publication_year then
    books.find? (fun bk =>
      bk.title == b.title && bk.publication_year == b.publication_year)
  else none

/-- Rule 3 of the lookup cascade (lines 649 to 655): the title-only query,
issued only when the candidate title is truthy. -/
def findByTitle (books : List BookRow) (b : ScrapedBook) : Option BookRow :=
  if b.title != "" then books.find? (fun bk => bk.title == b.title) else none

/-- STEP 1 of saveBooks (lines 628 to 655): each later rule runs only while
no earlier rule has produced a row. -/
def findExistingBook (books : List BookRow) (b : ScrapedBook) : Option BookRow :=
  (findByIsbn books b).orElse fun _ =>
    (findByTitleYear books b).orElse fun _ => findByTitle books b

/-- SQL COALESCE on two nullable values: the first one that is non-null. -/
def coalesce {α : Type} (a b : Option α) : Option α :=
  match a with
  | some v => some v
  | none => b

/-- STEP 2A of saveBooks (lines 662 to 685): the UPDATE statement.  Each of
the six COALESCE columns takes the candidate value when it is non-null and
keeps the stored value otherwise; last_updated is always set to the current
clock.  No other column appears in the statement. -/
def updateBookRow (bk : BookRow) (b : ScrapedBook) (now : Nat) : BookRow :=
  { bk with
    subtitle := coalesce b.subtitle bk.subtitle
    publisher := coalesce b.publisher bk.publisher
    pages := coalesce b.pages bk.pages
    description := coalesce b.description bk.description
    cover_image_url := coalesce b.cover_image_url bk.cover_image_url
    isbn := coalesce b.isbn bk.isbn
    last_updated := now }

/-- STEP 2B of saveBooks (lines 690 to 717): the INSERT statement.  The
language column falls back to English when the candidate language is falsy;
scraped_at and last_updated take their column defaults (the clock). -/
def insertBookRow (b : ScrapedBook) (sourceId : Nat) (bid : Nat) (now : Nat) : BookRow :=
  { book_id := bid
    title := b.title
    subtitle := b.subtitle
    isbn := b.isbn
    publication_year := b.publication_year
    publisher := b.publisher
    pages := b.pages
    language := jsOrStr b.language "English"
    description := b.description
    cover_image_url := b.cover_image_url
    source_id := sourceId
    source_url := b.source_url
    pdf_url := b.pdf_url
    download_url := b.download_url
    scraped_at := now
    last_updated := now }

/-- getOrCreateAuthor (lines 215 to 238): exact-name lookup in the authors
table, inserting a fresh row when the name is absent. -/
def getOrCreateAuthor (db : DB) (name : String) : Nat × DB :=
  match db.authors.find? (fun p => p.2 == name) with
  | some p => (p.1, db)
  | none =>
    (db.nextAuthorId,
     { db with
        authors := db.authors ++ [(db.nextAuthorId, name)]
        nextAuthorId := db.nextAuthorId + 1 })

/-- getOrCreateCategory (lines 246 to 269): the same pattern on the
categories table. -/
def getOrCreateCategory (db : DB) (name : String) : Nat × DB :=
  match db.categories.find? (fun p => p.2 == name) with
  | some p => (p.1, db)
  | none =>
    (db.nextCategoryId,
     { db with
        categories := db.categories ++ [(db.nextCategoryId, name)]
        nextCategoryId := db.nextCategoryId + 1 })

/-- The INSERT INTO book_authors statement with ON CONFLICT (book_id,
author_id) DO UPDATE SET author_position (lines 735 to 741): when a row for
the (book, author) pair exists its position is overwritten in place,
otherwise a new row is appended. -/
def upsertBookAuthor (rows : List (Nat × Nat × Nat)) (bid aid pos : Nat) :
    List (Nat × Nat × Nat) :=
  if rows.any (fun r => r.1 == bid && r.2.1 == aid) then
    rows.map (fun r => if r.1 == bid && r.2.1 == aid then (bid, aid, pos) else r)
  else rows ++ [(bid, aid, pos)]

/-- The author loop of STEP 3 (lines 730 to 743): each name paired with its
zero-based index in the original list; a name passing the truthiness check
is trimmed, resolved through getOrCreateAuthor and upserted with its
one-based position. -/
def linkAuthorsGo (db : DB) (bid : Nat) : List (Nat × String) → DB
  | [] => db
  | (i, name) :: rest =>
    if (name != "") && (jsTrim name != "") then
      let r := getOrCreateAuthor db (jsTrim name)
      linkAuthorsGo
        { r.2 with bookAuthors := upsertBookAuthor r.2.bookAuthors bid r.1 (i + 1) }
        bid rest
    else linkAuthorsGo db bid rest

/-- STEP 3 of saveBooks (lines 722 to 744) for a non-empty author list: the
DELETE FROM book_authors statement for the book followed by the insert
loop. -/
def relinkAuthors (db : DB) (bid : Nat) (names : List String) : DB :=
  linkAuthorsGo
    { db with bookAuthors := db.bookAuthors.filter (fun r => r.1 != bid) }
    bid names.enum

/-- The category loop of STEP 4 (lines 749 to 762): each truthy name is
trimmed, resolved through getOrCreateCategory, and the association is
inserted with ON CONFLICT DO NOTHING (appended only when absent). -/
def linkCategoriesGo (db : DB) (bid : Nat) : List String → DB
  | [] => db
  | name :: rest =>
    if (name != "") && (jsTrim name != "") then
      let r := getOrCreateCategory db (jsTrim name)
      let rows :=
        if r.2.bookCategories.any (fun q => q.1 == bid && q.2 == r.1) then
          r.2.bookCategories
        else r.2.bookCategories ++ [(bid, r.1)]
      linkCategoriesGo { r.2 with bookCategories := rows } bid rest
    else linkCategoriesGo db bid rest

/-- STEP 4 of saveBooks (lines 749 to 762) for a non-empty category list. -/
def relinkCategories (db : DB) (bid : Nat) (names : List String) : DB :=
  linkCategoriesGo db bid names

/-! ### The dedup/upsert engine (saveBooks, lines 613 to 789)

A statement-level database error for one candidate is modelled by an
injected failure point: the step of that candidate at which an exception is
raised.  An injected failure at the author or category linking step fires
only when that step actually issues statements, that is when the
corresponding list is non-empty.  All effects performed before the failing
statement remain in the open transaction and are committed with the batch,
exactly as in the code, where the per-candidate catch block does not roll
back. -/

inductive FailPoint where
  | lookup
  | write
  | authorLink
  | categoryLink
deriving DecidableEq, Repr

inductive Outcome where
  | added
  | updated
deriving DecidableEq, Repr

/-- The body of the per-candidate try block (lines 624 to 762).  Returns the
database after the candidate and the counted outcome: the counters are
incremented directly after the write (lines 684 and 715), before the two
linking steps, so a candidate failing while linking still reports the
outcome recorded at its write. -/
def processBook (db : DB) (b : ScrapedBook) (sourceId : Nat)
    (inj : Option FailPoint) : DB × Option Outcome :=
  if inj = some FailPoint.lookup then (db, none)
  else
    match findExistingBook db.books b with
    | some bk =>
      if inj = some FailPoint.write then (db, none)
      else
        let db1 :=
          { db with
              books := db.books.map (fun r =>
                if r.book_id == bk.book_id then updateBookRow r b db.now else r) }
        processLinks db1 bk.book_id b Outcome.updated inj
    | none =>
      if inj = some FailPoint.write then (db, none)
      else
        let db1 :=
          { db with
              books := db.books ++ [insertBookRow b sourceId db.nextBookId db.now]
              nextBookId := db.nextBookId + 1 }
        processLinks db1 db.nextBookId b Outcome.added inj
where
  /-- STEP 3 and STEP 4, each guarded by a non-emptiness check. -/
  processLinks (db : DB) (bid : Nat) (b : ScrapedBook) (out : Outcome)
      (inj : Option FailPoint) : DB × Option Outcome :=
    if b.authors.length > 0 then
      if inj = some FailPoint.authorLink then (db, some out)
      else
        let db2 := relinkAuthors db bid b.authors
        if b.categories.length > 0 then
          if inj = some FailPoint.categoryLink then (db2, some out)
          else (relinkCategories db2 bid b.categories, some out)
        else (db2, some out)
    else
      if b.categories.length > 0 then
        if inj = some FailPoint.categoryLink then (db, some out)
        else (relinkCategories db bid b.categories, some out)
      else (db, some out)

/-- The candidate loop of saveBooks with the two counters (lines 615 to
767). -/
def saveBooksGo (db : DB) (sourceId : Nat) (added updated : Nat) :
    List (ScrapedBook × Option FailPoint) → DB × Nat × Nat
  | [] => (db, added, updated)
  | (b, inj) :: rest =>
    match processBook db b sourceId inj with
    | (db1, some Outcome.added) => saveBooksGo db1 sourceId (added + 1) updated rest
    | (db1, some Outcome.updated) => saveBooksGo db1 sourceId added (updated + 1) rest
    | (db1, none) => saveBooksGo db1 sourceId added updated rest

/-- The UPDATE sources SET last_scraped statement issued after the commit
(lines 772 to 775). -/
def touchSource (db : DB) (sourceId : Nat) : DB :=
  { db with
      sources := db.sources.map (fun p =>
        if p.1 == sourceId then (p.1, some db.now) else p) }

/-- saveBooks (lines 613 to 789): run the candidate loop inside the
transaction, commit, touch the source, and return the counters.  Each
candidate carries its injected failure point (none when all its statements
succeed). -/
def saveBooks (db : DB) (items : List (ScrapedBook × Option FailPoint))
    (sourceId : Nat) : DB × Nat × Nat :=
  match saveBooksGo db sourceId 0 0 items with
  | (db1, a, u) => (touchSource db1 sourceId, a, u)

/-! ### Lookup cascade and merge update -/

lemma coalesce_none {α : Type} (b : Option α) : coalesce none b = b := rfl

lemma coalesce_some {α : Type} (v : α) (b : Option α) : coalesce (some v) b = some v := rfl

/-- The two Dune candidates of the ingestion scenario. -/
def duneWithIsbn : ScrapedBook := { title := "Dune", isbn := some "9780441013593" }

/-- The second Dune candidate: same title, no isbn, no year. -/
def duneNoIsbn : ScrapedBook := { title := "Dune" }

/-- An initial database holding one source row (id 7) and nothing else. -/
def db0 : DB :=
  { books := [], nextBookId := 1, authors := [], nextAuthorId := 1, bookAuthors := []
    categories := [], nextCategoryId := 1, bookCategories := [], sources := [(7, none)]
    now := 42 }

/-- C3: the existing-book lookup applies the three-rule cascade in order:
the isbn query is issued only for a truthy candidate isbn and its first
match wins; otherwise the title plus publication-year query is issued when
both are truthy and its first match wins; otherwise the title-only query
decides.  A candidate without isbn is matched purely on title, regardless
of the isbn stored on existing rows, so ingesting a titled candidate with
isbn followed by one with the same title and neither isbn nor year yields
one added plus one updated and a single stored row. -/
theorem findBook_cascade_and_dedup :
    (∀ (books : List BookRow) (b : ScrapedBook) (r : BookRow),
        strTruthy b.isbn = true →
        books.find? (fun bk => bk.isbn == b.isbn) = some r →
        findExistingBook books b = some r) ∧
    (∀ (books : List BookRow) (b : ScrapedBook) (r : BookRow),
        (strTruthy b.isbn = false ∨ books.find? (fun bk => bk.isbn == b.isbn) = none) →
        ((b.title != "") && intTruthy b.publication_year) = true →
        books.find? (fun bk =>
          bk.title == b.title && bk.publication_year == b.publication_year) = some r →
        findExistingBook books b = some r) ∧
    (∀ (books : List BookRow) (b : ScrapedBook) (r : BookRow),
        (strTruthy b.isbn = false ∨ books.find? (fun bk => bk.isbn == b.isbn) = none) →
        (((b.title != "") && intTruthy b.publication_year) = false ∨
          books.find? (fun bk =>
            bk.title == b.title && bk.publication_year == b.publication_year) = none) →
        (b.title != "") = true →
        books.find? (fun bk => bk.title == b.title) = some r →
        findExistingBook books b = some r) ∧
    ((saveBooks db0 [(duneWithIsbn, none), (duneNoIsbn, none)] 7).2 = (1, 1) ∧
      (saveBooks db0 [(duneWithIsbn, none), (duneNoIsbn, none)] 7).1.books.length = 1) := by
  have stage1_none : ∀ (books : List BookRow) (b : ScrapedBook),
      (strTruthy b.isbn = false ∨ books.find? (fun bk => bk.isbn == b.isbn) = none) →
      findByIsbn books b = none := by
    intro books b h
    rcases h with h | h
    · simp [findByIsbn, h]
    · cases ht : strTruthy b.isbn
      · simp [findByIsbn, ht]
      · simp [findByIsbn, ht, h]
  have stage2_none : ∀ (books : List BookRow) (b : ScrapedBook),
      (((b.title != "") && intTruthy b.publication_year) = false ∨
        books.find? (fun bk =>
          bk.title == b.title && bk.publication_year == b.publication_year) = none) →
      findByTitleYear books b = none := by
    intro books b h
    rcases h with h | h
    · simp [findByTitleYear, h]
    · cases ht : ((b.title != "") && intTruthy b.publication_year)
      · simp [findByTitleYear, ht]
      · simp [findByTitleYear, ht, h]
  refine ⟨?_, ?_, ?_, by decide, by decide⟩
  · intro books b r hisbn hfind
    have h1 : findByIsbn books b = some r := by simp [findByIsbn, hisbn, hfind]
    simp [findExistingBook, h1]
  · intro books b r hisbn hty hfind
    have h1 : findByIsbn books b = none := stage1_none books b hisbn
    have h2 : findByTitleYear books b = some r := by simp [findByTitleYear, hty, hfind]
    simp [findExistingBook, h1, h2]
  · intro books b r hisbn hty htitle hfind
    have h1 : findByIsbn books b = none := stage1_none books b hisbn
    have h2 : findByTitleYear books b = none := stage2_none books b hty
    have h3 : findByTitle books b = some r := by simp [findByTitle, htitle, hfind]
    simp [findExistingBook, h1, h2, h3]

/-- Witness for the cascade: a one-row table with an isbn-bearing book is
hit by the title-only rule for an isbn-less candidate of the same title. -/
theorem findBook_cascade_and_dedup_witness :
    findExistingBook
      [insertBookRow duneWithIsbn 7 1 42] duneNoIsbn
      = some (insertBookRow duneWithIsbn 7 1 42) :=
  findBook_cascade_and_dedup.2.2.1
    [insertBookRow duneWithIsbn 7 1 42] duneNoIsbn (insertBookRow duneWithIsbn 7 1 42)
    (Or.inl (by decide)) (Or.inl (by decide)) (by decide) (by decide)

/-- C4: the merge update writes each of the six optional columns only when
the candidate supplies a non-null value, never erasing a stored value with
null; it always sets last_updated to the transaction clock; and it leaves
every column outside that set (title, publication year, language, source
url, identifiers, pdf and download urls, scraped_at) unchanged. -/
theorem updateBook_coalesce_merge :
    ∀ (bk : BookRow) (b : ScrapedBook) (now : Nat),
      ((b.subtitle = none → (updateBookRow bk b now).subtitle = bk.subtitle) ∧
        (∀ v, b.subtitle = some v → (updateBookRow bk b now).subtitle = some v)) ∧
      ((b.publisher = none → (updateBookRow bk b now).publisher = bk.publisher) ∧
        (∀ v, b.publisher = some v → (updateBookRow bk b now).publisher = some v)) ∧
      ((b.pages = none → (updateBookRow bk b now).pages = bk.pages) ∧
        (∀ v, b.pages = some v → (updateBookRow bk b now).pages = some v)) ∧
      ((b.description = none → (updateBookRow bk b now).description = bk.description) ∧
        (∀ v, b.description = some v → (updateBookRow bk b now).description = some v)) ∧
      ((b.cover_image_url = none →
          (updateBookRow bk b now).cover_image_url = bk.cover_image_url) ∧
        (∀ v, b.cover_image_url = some v →
          (updateBookRow bk b now).cover_image_url = some v)) ∧
      ((b.isbn = none → (updateBookRow bk b now).isbn = bk.isbn) ∧
        (∀ v, b.isbn = some v → (updateBookRow bk b now).isbn = some v)) ∧
      (updateBookRow bk b now).last_updated = now ∧
      (updateBookRow bk b now).title = bk.title ∧
      (updateBookRow bk b now).publication_year = bk.publication_year ∧
      (updateBookRow bk b now).language = bk.language ∧
      (updateBookRow bk b now).source_url = bk.source_url ∧
      (updateBookRow bk b now).book_id = bk.book_id ∧
      (updateBookRow bk b now).source_id = bk.source_id ∧
      (updateBookRow bk b now).pdf_url = bk.pdf_url ∧
      (updateBookRow bk b now).download_url = bk.download_url ∧
      (updateBookRow bk b now).scraped_at = bk.scraped_at := by
  intro bk b now
  refine ⟨⟨fun h => ?_, fun v h => ?_⟩, ⟨fun h => ?_, fun v h => ?_⟩,
    ⟨fun h => ?_, fun v h => ?_⟩, ⟨fun h => ?_, fun v h => ?_⟩,
    ⟨fun h => ?_, fun v h => ?_⟩, ⟨fun h => ?_, fun v h => ?_⟩,
    rfl, rfl, rfl, rfl, rfl, rfl, rfl, rfl, rfl, rfl⟩ <;>
  · show coalesce _ _ = _
    rw [h]
    rfl

/-- Witness for the merge update: a stored publisher Acme survives a
candidate with no publisher, while a supplied description is taken over. -/
theorem updateBook_coalesce_merge_witness :
    (updateBookRow
        (insertBookRow { title := "B", publisher := some "Acme" } 7 1 42)
        { title := "B", description := some "d" } 43).publisher = some "Acme" ∧
    (updateBookRow
        (insertBookRow { title := "B", publisher := some "Acme" } 7 1 42)
        { title := "B", description := some "d" } 43).description = some "d" ∧
    (updateBookRow
        (insertBookRow { title := "B", publisher := some "Acme" } 7 1 42)
        { title := "B", description := some "d" } 43).last_updated = 43 := by
  have h := updateBook_coalesce_merge
    (insertBookRow { title := "B", publisher := some "Acme" } 7 1 42)
    { title := "B", description := some "d" } 43
  refine ⟨?_, h.2.2.2.1.2 "d" rfl, h.2.2.2.2.2.2.1⟩
  have hp := h.2.1.1 rfl
  rw [hp]
  rfl

/-! ### Per-candidate failure isolation in the batch loop -/

lemma processBook_lookup_noop (db : DB) (b : ScrapedBook) (src : Nat) :
    processBook db b src (some FailPoint.lookup) = (db, none) := by
  simp [processBook]

lemma processBook_write_noop (db : DB) (b : ScrapedBook) (src : Nat) :
    processBook db b src (some FailPoint.write) = (db, none) := by
  cases h : findExistingBook db.books b <;> simp [processBook, h]

/-- A candidate whose injected error strikes before any of its writes (at
the lookup or at the insert/update statement) leaves the loop state exactly
as if the candidate were absent from the batch. -/
lemma saveBooksGo_skip :
    ∀ (items : List (ScrapedBook × Option FailPoint)) (i : Nat) (h : i < items.length)
      (db : DB) (src a u : Nat),
      ((items.get ⟨i, h⟩).2 = some FailPoint.lookup ∨
        (items.get ⟨i, h⟩).2 = some FailPoint.write) →
      saveBooksGo db src a u items = saveBooksGo db src a u (items.eraseIdx i) := by
  intro items
  induction items with
  | nil => intro i h; simp at h
  | cons hd rest ih =>
    intro i h db src a u hfail
    cases i with
    | zero =>
      obtain ⟨b, inj⟩ := hd
      have hfail2 : inj = some FailPoint.lookup ∨ inj = some FailPoint.write := hfail
      have hnoop : processBook db b src inj = (db, none) := by
        rcases hfail2 with hf | hf <;> subst hf
        · exact processBook_lookup_noop db b src
        · exact processBook_write_noop db b src
      simp [saveBooksGo, hnoop, List.eraseIdx_cons_zero]
    | succ k =>
      obtain ⟨b, inj⟩ := hd
      have hk : k < rest.length := by simpa using h
      have hfail' : ((rest.get ⟨k, hk⟩).2 = some FailPoint.lookup ∨
          (rest.get ⟨k, hk⟩).2 = some FailPoint.write) := hfail
      rw [List.eraseIdx_cons_succ]
      cases hp : processBook db b src inj with
      | mk db1 out =>
        cases out with
        | none =>
          simp only [saveBooksGo, hp]
          exact ih k hk db1 src a u hfail'
        | some o =>
          cases o <;> simp only [saveBooksGo, hp] <;>
            exact ih k hk db1 src _ _ hfail'

/-- The three candidates of the isolation scenario: two good ones around a
candidate whose lookup raises. -/
def goodOne : ScrapedBook := { title := "G1" }

/-- Second good candidate of the isolation scenario. -/
def goodTwo : ScrapedBook := { title := "G2" }

/-- The failing candidate of the isolation scenario. -/
def badOne : ScrapedBook := { title := "Bad" }

/-- C1: an error raised while processing one candidate is absorbed inside
the per-candidate loop: a candidate failing at its lookup contributes
nothing and the rest of the batch commits unchanged (the run equals the run
on the batch without that candidate), and in the concrete three-candidate
scenario with a failing middle candidate the two good candidates are both
inserted and counted. -/
theorem saveBooks_single_bad_record_isolated :
    (∀ (db : DB) (items : List (ScrapedBook × Option FailPoint)) (src i : Nat)
        (h : i < items.length),
        (items.get ⟨i, h⟩).2 = some FailPoint.lookup →
        saveBooks db items src = saveBooks db (items.eraseIdx i) src) ∧
    ((saveBooks db0
        [(goodOne, none), (badOne, some FailPoint.lookup), (goodTwo, none)] 7).2
          = (2, 0) ∧
      ((saveBooks db0
        [(goodOne, none), (badOne, some FailPoint.lookup), (goodTwo, none)] 7).1.books.map
          (fun r => r.title)) = ["G1", "G2"]) := by
  refine ⟨?_, by decide, by decide⟩
  intro db items src i h hf
  have hgo := saveBooksGo_skip items i h db src 0 0 (Or.inl hf)
  simp [saveBooks, hgo]

/-- Witness for the isolation theorem: dropping a lookup-failing candidate
from a concrete two-candidate batch does not change the run. -/
theorem saveBooks_single_bad_record_isolated_witness :
    saveBooks db0 [(goodOne, none), (badOne, some FailPoint.lookup)] 7 =
      saveBooks db0 ([(goodOne, none), (badOne, some FailPoint.lookup)].eraseIdx 1) 7 :=
  saveBooks_single_bad_record_isolated.1 db0
    [(goodOne, none), (badOne, some FailPoint.lookup)] 7 1 (by decide) (by decide)

/-- The candidate of the counting counterexample: it lists one author, and
its injected error strikes at the author-linking step, after the insert and
after the added counter has been incremented. -/
def badAuthorCandidate : ScrapedBook := { title := "A", authors := ["Alice"] }

/-- C2 counterexample: a one-candidate batch whose only candidate raises an
error (at author linking) reports added = 1, not added = 0, because the
counter is incremented at the write, before the linking steps; the claim
that an erroring candidate contributes to neither count is therefore false
at this input. -/
theorem saveBooks_counts_counterexample :
    (saveBooks db0 [(badAuthorCandidate, some FailPoint.authorLink)] 7).2 = (1, 0) ∧
    ¬ (saveBooks db0 [(badAuthorCandidate, some FailPoint.authorLink)] 7).2 = (0, 0) :=
  ⟨by decide, by decide⟩

/-- C2 amended: the returned counts reflect the candidates whose lookup and
write succeeded.  A candidate failing at its lookup or at its insert/update
contributes to neither count (the batch equals the batch without it), but a
candidate failing during author or category linking has already been
counted: its outcome is still reported as added or updated. -/
theorem saveBooks_counts_reflect_writes :
    (∀ (db : DB) (items : List (ScrapedBook × Option FailPoint)) (src i : Nat)
        (h : i < items.length),
        (items.get ⟨i, h⟩).2 = some FailPoint.write →
        saveBooks db items src = saveBooks db (items.eraseIdx i) src) ∧
    (∀ (db : DB) (b : ScrapedBook) (src : Nat),
        b.authors ≠ [] → findExistingBook db.books b = none →
        (processBook db b src (some FailPoint.authorLink)).2 = some Outcome.added) ∧
    (∀ (db : DB) (b : ScrapedBook) (src : Nat) (bk : BookRow),
        b.authors ≠ [] → findExistingBook db.books b = some bk →
        (processBook db b src (some FailPoint.authorLink)).2 = some Outcome.updated) ∧
    (∀ (db : DB) (b : ScrapedBook) (src : Nat),
        b.categories ≠ [] → findExistingBook db.books b = none →
        (processBook db b src (some FailPoint.categoryLink)).2 = some Outcome.added) := by
  refine ⟨?_, ?_, ?_, ?_⟩
  · intro db items src i h hf
    have hgo := saveBooksGo_skip items i h db src 0 0 (Or.inr hf)
    simp [saveBooks, hgo]
  · intro db b src hA hfind
    have hlen : 0 < b.authors.length := List.length_pos.mpr hA
    simp [processBook, hfind, processBook.processLinks, hlen]
  · intro db b src bk hA hfind
    have hlen : 0 < b.authors.length := List.length_pos.mpr hA
    simp [processBook, hfind, processBook.processLinks, hlen]
  · intro db b src hC hfind
    have hlen : 0 < b.categories.length := List.length_pos.mpr hC
    by_cases hA : b.authors.length > 0 <;>
      simp [processBook, hfind, processBook.processLinks, hlen, hA]

/-- Witness for the amended counting theorem: the concrete author-listing
candidate, inserted into the empty catalog with its author-linking step
failing, is still counted as added. -/
theorem saveBooks_counts_reflect_writes_witness :
    (processBook db0 badAuthorCandidate 7 (some FailPoint.authorLink)).2
      = some Outcome.added :=
  saveBooks_counts_reflect_writes.2.1 db0 badAuthorCandidate 7 (by decide) (by decide)

/-! ### Author relinking: factorisation of the insert loop

The author-table reads and writes of the loop are independent of the
book_authors writes, so the loop factors into a name-resolution pass over
the authors table followed by applying the resolved upserts. -/

/-- The name-resolution pass of the author insert loop: the evolving
authors table with its id counter, together with the resolved (author_id,
position) upserts in loop order. -/
def resolveNames : List (Nat × String) → Nat → List (Nat × String) →
    List (Nat × String) × Nat × List (Nat × Nat)
  | tbl, nid, [] => (tbl, nid, [])
  | tbl, nid, (i, name) :: rest =>
    if (name != "") && (jsTrim name != "") then
      match tbl.find? (fun p => p.2 == jsTrim name) with
      | some p =>
        match resolveNames tbl nid rest with
        | (t, n, l) => (t, n, (p.1, i + 1) :: l)
      | none =>
        match resolveNames (tbl ++ [(nid, jsTrim name)]) (nid + 1) rest with
        | (t, n, l) => (t, n, (nid, i + 1) :: l)
    else resolveNames tbl nid rest

/-- Applying a list of resolved (author_id, position) upserts to the
book_authors table. -/
def applyUpserts (rows : List (Nat × Nat × Nat)) (bid : Nat) :
    List (Nat × Nat) → List (Nat × Nat × Nat)
  | [] => rows
  | pr :: rest => applyUpserts (upsertBookAuthor rows bid pr.1 pr.2) bid rest

/-- The id a name resolves to in an authors table (0 when absent; it is
only read at names known to be present). -/
def lookupAuthorId (tbl : List (Nat × String)) (nm : String) : Nat :=
  match tbl.find? (fun p => p.2 == nm) with
  | some p => p.1
  | none => 0

lemma linkAuthorsGo_factor :
    ∀ (pairs : List (Nat × String)) (db : DB) (bid : Nat),
      linkAuthorsGo db bid pairs =
        { db with
            authors := (resolveNames db.authors db.nextAuthorId pairs).1
            nextAuthorId := (resolveNames db.authors db.nextAuthorId pairs).2.1
            bookAuthors := applyUpserts db.bookAuthors bid
              (resolveNames db.authors db.nextAuthorId pairs).2.2 } := by
  intro pairs
  induction pairs with
  | nil => intro db bid; rfl
  | cons hd rest ih =>
    intro db bid
    obtain ⟨i, name⟩ := hd
    by_cases hc : ((name != "") && (jsTrim name != "")) = true
    · cases hf : db.authors.find? (fun p => p.2 == jsTrim name) with
      | some p =>
        have hgo : getOrCreateAuthor db (jsTrim name) = (p.1, db) := by
          simp [getOrCreateAuthor, hf]
        rw [linkAuthorsGo, if_pos hc, hgo]
        rw [ih]
        simp only [resolveNames, hc, if_true, hf]
        cases hr : resolveNames db.authors db.nextAuthorId rest with
        | mk t nl => rfl
      | none =>
        have hgo : getOrCreateAuthor db (jsTrim name) =
            (db.nextAuthorId,
             { db with
                authors := db.authors ++ [(db.nextAuthorId, jsTrim name)]
                nextAuthorId := db.nextAuthorId + 1 }) := by
          simp [getOrCreateAuthor, hf]
        rw [linkAuthorsGo, if_pos hc, hgo]
        rw [ih]
        simp only [resolveNames, hc, if_true, hf]
        cases hr : resolveNames (db.authors ++ [(db.nextAuthorId, jsTrim name)])
            (db.nextAuthorId + 1) rest with
        | mk t nl => rfl
    · rw [linkAuthorsGo, if_neg hc, ih]
      simp only [resolveNames, hc]
      rfl

lemma resolveNames_growth :
    ∀ (pairs tbl : List (Nat × String)) (nid : Nat),
      ∃ ext, (resolveNames tbl nid pairs).1 = tbl ++ ext := by
  intro pairs
  induction pairs with
  | nil => intro tbl nid; exact ⟨[], by simp [resolveNames]⟩
  | cons hd rest ih =>
    intro tbl nid
    obtain ⟨i, name⟩ := hd
    by_cases hc : ((name != "") && (jsTrim name != "")) = true
    · cases hf : tbl.find? (fun p => p.2 == jsTrim name) with
      | some p =>
        obtain ⟨ext, hext⟩ := ih tbl nid
        refine ⟨ext, ?_⟩
        simp only [resolveNames, hc, if_true, hf]
        cases hr : resolveNames tbl nid rest with
        | mk t nl => rw [hr] at hext; exact hext
      | none =>
        obtain ⟨ext, hext⟩ := ih (tbl ++ [(nid, jsTrim name)]) (nid + 1)
        refine ⟨(nid, jsTrim name) :: ext, ?_⟩
        simp only [resolveNames, hc, if_true, hf]
        cases hr : resolveNames (tbl ++ [(nid, jsTrim name)]) (nid + 1) rest with
        | mk t nl =>
          rw [hr] at hext
          simpa [List.append_assoc] using hext
    · simp only [resolveNames, hc, if_false]
      exact ih tbl nid

lemma resolveNames_stable :
    ∀ (pairs tbl : List (Nat × String)) (nid : Nat),
      resolveNames (resolveNames tbl nid pairs).1 (resolveNames tbl nid pairs).2.1 pairs
        = resolveNames tbl nid pairs := by
  intro pairs
  induction pairs with
  | nil => intro tbl nid; rfl
  | cons hd rest ih =>
    intro tbl nid
    obtain ⟨i, name⟩ := hd
    by_cases hc : ((name != "") && (jsTrim name != "")) = true
    · cases hf : tbl.find? (fun p => p.2 == jsTrim name) with
      | some p =>
        have hstep : resolveNames tbl nid ((i, name) :: rest) =
            ((resolveNames tbl nid rest).1, (resolveNames tbl nid rest).2.1,
              (p.1, i + 1) :: (resolveNames tbl nid rest).2.2) := by
          simp only [resolveNames, hc, if_true, hf]
        rw [hstep]
        obtain ⟨ext, hext⟩ := resolveNames_growth rest tbl nid
        have hft : (resolveNames tbl nid rest).1.find? (fun q => q.2 == jsTrim name)
            = some p := by
          rw [hext, List.find?_append, hf]
          rfl
        simp only [resolveNames, hc, if_true, hft]
        rw [ih tbl nid]
      | none =>
        have hstep : resolveNames tbl nid ((i, name) :: rest) =
            ((resolveNames (tbl ++ [(nid, jsTrim name)]) (nid + 1) rest).1,
              (resolveNames (tbl ++ [(nid, jsTrim name)]) (nid + 1) rest).2.1,
              (nid, i + 1) ::
                (resolveNames (tbl ++ [(nid, jsTrim name)]) (nid + 1) rest).2.2) := by
          simp only [resolveNames, hc, if_true, hf]
        rw [hstep]
        obtain ⟨ext, hext⟩ :=
          resolveNames_growth rest (tbl ++ [(nid, jsTrim name)]) (nid + 1)
        have hft : (resolveNames (tbl ++ [(nid, jsTrim name)]) (nid + 1) rest).1.find?
            (fun q => q.2 == jsTrim name) = some (nid, jsTrim name) := by
          rw [hext, List.append_assoc, List.find?_append, hf]
          simp
        simp only [resolveNames, hc, if_true, hft]
        rw [ih (tbl ++ [(nid, jsTrim name)]) (nid + 1)]
    · simp only [resolveNames, hc, if_false]
      exact ih tbl nid

/-! ### Upsert and filter lemmas for the book_authors table -/

lemma filter_ne_map_upsert (rows : List (Nat × Nat × Nat)) (bid aid pos : Nat) :
    ((rows.map (fun r =>
        if r.1 == bid && r.2.1 == aid then (bid, aid, pos) else r)).filter
          (fun r => r.1 != bid))
      = rows.filter (fun r => r.1 != bid) := by
  induction rows with
  | nil => rfl
  | cons r rest ihr =>
    simp only [List.map_cons, List.filter_cons]
    by_cases hb : (r.1 == bid && r.2.1 == aid) = true
    · have hb1 : (r.1 == bid) = true := by
        rw [Bool.and_eq_true] at hb
        exact hb.1
      rw [if_pos hb]
      rw [show (((bid, aid, pos) : Nat × Nat × Nat).1 != bid) = false by simp,
        show (r.1 != bid) = false by simp [bne, hb1]]
      simp only [Bool.false_eq_true, if_false]
      exact ihr
    · rw [if_neg hb]
      by_cases hn : (r.1 != bid) = true
      · rw [if_pos hn, if_pos hn, ihr]
      · rw [if_neg hn, if_neg hn]
        exact ihr

lemma upsert_filter_ne (rows : List (Nat × Nat × Nat)) (bid aid pos : Nat) :
    (upsertBookAuthor rows bid aid pos).filter (fun r => r.1 != bid)
      = rows.filter (fun r => r.1 != bid) := by
  unfold upsertBookAuthor
  by_cases hany : rows.any (fun r => r.1 == bid && r.2.1 == aid) = true
  · rw [if_pos hany]
    exact filter_ne_map_upsert rows bid aid pos
  · rw [if_neg hany, List.filter_append]
    simp

lemma applyUpserts_filter_ne :
    ∀ (l : List (Nat × Nat)) (rows : List (Nat × Nat × Nat)) (bid : Nat),
      (applyUpserts rows bid l).filter (fun r => r.1 != bid)
        = rows.filter (fun r => r.1 != bid) := by
  intro l
  induction l with
  | nil => intro rows bid; rfl
  | cons pr rest ih =>
    intro rows bid
    rw [applyUpserts, ih, upsert_filter_ne]

lemma filter_ne_idem (rows : List (Nat × Nat × Nat)) (bid : Nat) :
    ((rows.filter (fun r => r.1 != bid)).filter (fun r => r.1 != bid))
      = rows.filter (fun r => r.1 != bid) := by
  induction rows with
  | nil => rfl
  | cons r rest ih =>
    by_cases hb : r.1 = bid <;> simp [List.filter_cons, hb, ih]

/-- The delete-then-insert block in terms of the factored loop. -/
lemma relinkAuthors_eq (db : DB) (bid : Nat) (names : List String) :
    relinkAuthors db bid names =
      { db with
          authors := (resolveNames db.authors db.nextAuthorId names.enum).1
          nextAuthorId := (resolveNames db.authors db.nextAuthorId names.enum).2.1
          bookAuthors := applyUpserts
            (db.bookAuthors.filter (fun r => r.1 != bid)) bid
            (resolveNames db.authors db.nextAuthorId names.enum).2.2 } := by
  unfold relinkAuthors
  exact linkAuthorsGo_factor names.enum
    { db with bookAuthors := db.bookAuthors.filter (fun r => r.1 != bid) } bid

lemma relinkAuthors_idem (db : DB) (bid : Nat) (names : List String) :
    relinkAuthors (relinkAuthors db bid names) bid names
      = relinkAuthors db bid names := by
  have h1 := relinkAuthors_eq db bid names
  have h2 := relinkAuthors_eq (relinkAuthors db bid names) bid names
  rw [h2, h1]
  simp only [applyUpserts_filter_ne, filter_ne_idem, resolveNames_stable]

/-! ### Characterisation of the resolved author links -/

/-- The well-formedness of an authors table: distinct ids, all below the
next fresh id. -/
def authorsInvariant (tbl : List (Nat × String)) (nid : Nat) : Prop :=
  (tbl.map Prod.fst).Nodup ∧ ∀ p ∈ tbl, p.1 < nid

lemma resolveNames_cons_found (tbl : List (Nat × String)) (nid i : Nat)
    (name : String) (rest : List (Nat × String)) (p : Nat × String)
    (hc : ((name != "") && (jsTrim name != "")) = true)
    (hf : tbl.find? (fun q => q.2 == jsTrim name) = some p) :
    resolveNames tbl nid ((i, name) :: rest) =
      ((resolveNames tbl nid rest).1, (resolveNames tbl nid rest).2.1,
        (p.1, i + 1) :: (resolveNames tbl nid rest).2.2) := by
  simp only [resolveNames, hc, if_true, hf]

lemma resolveNames_cons_new (tbl : List (Nat × String)) (nid i : Nat)
    (name : String) (rest : List (Nat × String))
    (hc : ((name != "") && (jsTrim name != "")) = true)
    (hf : tbl.find? (fun q => q.2 == jsTrim name) = none) :
    resolveNames tbl nid ((i, name) :: rest) =
      ((resolveNames (tbl ++ [(nid, jsTrim name)]) (nid + 1) rest).1,
        (resolveNames (tbl ++ [(nid, jsTrim name)]) (nid + 1) rest).2.1,
        (nid, i + 1) ::
          (resolveNames (tbl ++ [(nid, jsTrim name)]) (nid + 1) rest).2.2) := by
  simp only [resolveNames, hc, if_true, hf]

lemma resolveNames_find_final_found (tbl : List (Nat × String)) (nid : Nat)
    (rest : List (Nat × String)) (nm : String) (p : Nat × String)
    (hf : tbl.find? (fun q => q.2 == nm) = some p) :
    (resolveNames tbl nid rest).1.find? (fun q => q.2 == nm) = some p := by
  obtain ⟨ext, hext⟩ := resolveNames_growth rest tbl nid
  rw [hext, List.find?_append, hf]
  rfl

lemma resolveNames_find_final_new (tbl : List (Nat × String)) (nid : Nat)
    (rest : List (Nat × String)) (nm : String)
    (hf : tbl.find? (fun q => q.2 == nm) = none) :
    (resolveNames (tbl ++ [(nid, nm)]) (nid + 1) rest).1.find?
      (fun q => q.2 == nm) = some (nid, nm) := by
  obtain ⟨ext, hext⟩ := resolveNames_growth rest (tbl ++ [(nid, nm)]) (nid + 1)
  rw [hext, List.append_assoc, List.find?_append, hf]
  simp

lemma resolveNames_invariant :
    ∀ (pairs tbl : List (Nat × String)) (nid : Nat),
      authorsInvariant tbl nid →
      authorsInvariant (resolveNames tbl nid pairs).1
        (resolveNames tbl nid pairs).2.1 := by
  intro pairs
  induction pairs with
  | nil => intro tbl nid h; exact h
  | cons hd rest ih =>
    intro tbl nid h
    obtain ⟨i, name⟩ := hd
    by_cases hc : ((name != "") && (jsTrim name != "")) = true
    · cases hf : tbl.find? (fun p => p.2 == jsTrim name) with
      | some p =>
        rw [resolveNames_cons_found tbl nid i name rest p hc hf]
        exact ih tbl nid h
      | none =>
        rw [resolveNames_cons_new tbl nid i name rest hc hf]
        refine ih (tbl ++ [(nid, jsTrim name)]) (nid + 1) ⟨?_, ?_⟩
        · have hnot : nid ∉ tbl.map Prod.fst := by
            intro hmem
            obtain ⟨q, hq, hq1⟩ := List.mem_map.mp hmem
            exact Nat.ne_of_lt (h.2 q hq) hq1
          simpa [List.nodup_append, h.1] using hnot
        · intro q hq
          rcases List.mem_append.mp hq with hq | hq
          · exact Nat.lt_succ_of_lt (h.2 q hq)
          · rcases List.mem_singleton.mp hq with rfl
            exact Nat.lt_succ_self nid
    · simp only [resolveNames, hc, if_false]
      exact ih tbl nid h

lemma resolveNames_resolved :
    ∀ (pairs tbl : List (Nat × String)) (nid : Nat),
      (∀ pr ∈ pairs, ((pr.2 != "") && (jsTrim pr.2 != "")) = true) →
      ((resolveNames tbl nid pairs).2.2 =
        pairs.map (fun pr =>
          (lookupAuthorId (resolveNames tbl nid pairs).1 (jsTrim pr.2), pr.1 + 1))) ∧
      (∀ pr ∈ pairs, ∃ q, (resolveNames tbl nid pairs).1.find?
          (fun p => p.2 == jsTrim pr.2) = some q) := by
  intro pairs
  induction pairs with
  | nil => intro tbl nid _; exact ⟨rfl, by intro pr h; cases h⟩
  | cons hd rest ih =>
    intro tbl nid hcond
    obtain ⟨i, name⟩ := hd
    have hc : ((name != "") && (jsTrim name != "")) = true :=
      hcond (i, name) (List.mem_cons_self _ _)
    have hcrest : ∀ pr ∈ rest, ((pr.2 != "") && (jsTrim pr.2 != "")) = true :=
      fun pr hpr => hcond pr (List.mem_cons_of_mem _ hpr)
    cases hf : tbl.find? (fun p => p.2 == jsTrim name) with
    | some p =>
      rw [resolveNames_cons_found tbl nid i name rest p hc hf]
      have hffin := resolveNames_find_final_found tbl nid rest (jsTrim name) p hf
      obtain ⟨ihl, ihfind⟩ := ih tbl nid hcrest
      constructor
      · simp only [List.map_cons]
        refine congrArg₂ List.cons ?_ ihl
        simp [lookupAuthorId, hffin]
      · intro pr hpr
        rcases List.mem_cons.mp hpr with rfl | hpr
        · exact ⟨p, hffin⟩
        · exact ihfind pr hpr
    | none =>
      rw [resolveNames_cons_new tbl nid i name rest hc hf]
      have hffin := resolveNames_find_final_new tbl nid rest (jsTrim name) hf
      obtain ⟨ihl, ihfind⟩ := ih (tbl ++ [(nid, jsTrim name)]) (nid + 1) hcrest
      constructor
      · simp only [List.map_cons]
        refine congrArg₂ List.cons ?_ ihl
        simp [lookupAuthorId, hffin]
      · intro pr hpr
        rcases List.mem_cons.mp hpr with rfl | hpr
        · exact ⟨(nid, jsTrim name), hffin⟩
        · exact ihfind pr hpr

lemma resolveNames_ids_nodup :
    ∀ (pairs tbl : List (Nat × String)) (nid : Nat),
      authorsInvariant tbl nid →
      (∀ pr ∈ pairs, ((pr.2 != "") && (jsTrim pr.2 != "")) = true) →
      (pairs.map (fun pr => jsTrim pr.2)).Nodup →
      (((resolveNames tbl nid pairs).2.2).map Prod.fst).Nodup := by
  intro pairs
  induction pairs with
  | nil => intro tbl nid _ _ _; simp [resolveNames]
  | cons hd rest ih =>
    intro tbl nid hinv hcond hnd
    obtain ⟨i, name⟩ := hd
    have hc : ((name != "") && (jsTrim name != "")) = true :=
      hcond (i, name) (List.mem_cons_self _ _)
    have hcrest : ∀ pr ∈ rest, ((pr.2 != "") && (jsTrim pr.2 != "")) = true :=
      fun pr hpr => hcond pr (List.mem_cons_of_mem _ hpr)
    have hnd2 : jsTrim name ∉ rest.map (fun pr => jsTrim pr.2) ∧
        (rest.map (fun pr => jsTrim pr.2)).Nodup := by
      simp only [List.map_cons, List.nodup_cons] at hnd
      exact hnd
    have hndhead := hnd2.1
    have hndrest := hnd2.2
    -- the common argument, parameterised by the table the rest runs from
    have main : ∀ (tbl2 : List (Nat × String)) (nid2 : Nat) (q0 : Nat × String),
        authorsInvariant tbl2 nid2 →
        (resolveNames tbl2 nid2 rest).1.find? (fun q => q.2 == jsTrim name) = some q0 →
        (((q0.1, i + 1) :: (resolveNames tbl2 nid2 rest).2.2).map Prod.fst).Nodup := by
      intro tbl2 nid2 q0 hinv2 hfind0
      have hinvfin := resolveNames_invariant rest tbl2 nid2 hinv2
      obtain ⟨ihl, ihfind⟩ := resolveNames_resolved rest tbl2 nid2 hcrest
      rw [List.map_cons, List.nodup_cons]
      refine ⟨?_, ih tbl2 nid2 hinv2 hcrest hndrest⟩
      intro hmem
      obtain ⟨pr2, hpr2, hpr2eq⟩ := List.mem_map.mp hmem
      have hpr2mem : pr2 ∈ (resolveNames tbl2 nid2 rest).2.2 := hpr2
      rw [ihl] at hpr2mem
      obtain ⟨pr, hpr, hpreq⟩ := List.mem_map.mp hpr2mem
      obtain ⟨qk, hqk⟩ := ihfind pr hpr
      have hq0mem : q0 ∈ (resolveNames tbl2 nid2 rest).1 :=
        List.mem_of_find?_eq_some hfind0
      have hqkmem : qk ∈ (resolveNames tbl2 nid2 rest).1 :=
        List.mem_of_find?_eq_some hqk
      have hq0nm : q0.2 = jsTrim name := by
        have := List.find?_some hfind0
        simpa using this
      have hqknm : qk.2 = jsTrim pr.2 := by
        have := List.find?_some hqk
        simpa using this
      have hids : q0.1 = qk.1 := by
        have h0 : lookupAuthorId (resolveNames tbl2 nid2 rest).1 (jsTrim pr.2) = pr2.1 := by
          rw [← hpreq]
        have h2 : lookupAuthorId (resolveNames tbl2 nid2 rest).1 (jsTrim pr.2) = qk.1 := by
          simp [lookupAuthorId, hqk]
        have h1 : pr2.1 = q0.1 := hpr2eq
        rw [← h1, ← h0]
        exact h2
      have hqq : q0 = qk :=
        List.inj_on_of_nodup_map hinvfin.1 hq0mem hqkmem hids
      have : jsTrim name = jsTrim pr.2 := by rw [← hq0nm, hqq, hqknm]
      exact hndhead (this ▸ List.mem_map_of_mem (fun pr => jsTrim pr.2) hpr)
    cases hf : tbl.find? (fun p => p.2 == jsTrim name) with
    | some p =>
      rw [resolveNames_cons_found tbl nid i name rest p hc hf]
      exact main tbl nid p hinv (resolveNames_find_final_found tbl nid rest (jsTrim name) p hf)
    | none =>
      rw [resolveNames_cons_new tbl nid i name rest hc hf]
      refine main (tbl ++ [(nid, jsTrim name)]) (nid + 1) (nid, jsTrim name) ⟨?_, ?_⟩
        (resolveNames_find_final_new tbl nid rest (jsTrim name) hf)
      · have hnot : nid ∉ tbl.map Prod.fst := by
          intro hmem
          obtain ⟨q, hq, hq1⟩ := List.mem_map.mp hmem
          exact Nat.ne_of_lt (hinv.2 q hq) hq1
        simpa [List.nodup_append, hinv.1] using hnot
      · intro q hq
        rcases List.mem_append.mp hq with hq | hq
        · exact Nat.lt_succ_of_lt (hinv.2 q hq)
        · rcases List.mem_singleton.mp hq with rfl
          exact Nat.lt_succ_self nid

lemma applyUpserts_append :
    ∀ (l : List (Nat × Nat)) (rows : List (Nat × Nat × Nat)) (bid : Nat),
      (∀ pr ∈ l, ∀ r ∈ rows, r.1 = bid → r.2.1 ≠ pr.1) →
      (l.map Prod.fst).Nodup →
      applyUpserts rows bid l = rows ++ l.map (fun pr => (bid, pr.1, pr.2)) := by
  intro l
  induction l with
  | nil => intro rows bid _ _; simp [applyUpserts]
  | cons pr rest ih =>
    intro rows bid hdis hnd
    have hany : rows.any (fun r => r.1 == bid && r.2.1 == pr.1) = false := by
      rw [List.any_eq_false]
      intro r hr hcontra
      rw [Bool.and_eq_true] at hcontra
      exact hdis pr (List.mem_cons_self _ _) r hr (by simpa using hcontra.1)
        (by simpa using hcontra.2)
    have hup : upsertBookAuthor rows bid pr.1 pr.2 = rows ++ [(bid, pr.1, pr.2)] := by
      unfold upsertBookAuthor
      rw [if_neg (by simp [hany])]
    have hdis2 : ∀ pr2 ∈ rest, ∀ r ∈ rows ++ [(bid, pr.1, pr.2)],
        r.1 = bid → r.2.1 ≠ pr2.1 := by
      intro pr2 hpr2 r hr hrb
      rcases List.mem_append.mp hr with hr | hr
      · exact hdis pr2 (List.mem_cons_of_mem _ hpr2) r hr hrb
      · rcases List.mem_singleton.mp hr with rfl
        intro heq
        have hpr1 : pr.1 ∉ rest.map Prod.fst := by
          simp only [List.map_cons, List.nodup_cons] at hnd
          exact hnd.1
        exact hpr1 (by rw [heq]; exact List.mem_map_of_mem Prod.fst hpr2)
    have hndt : (rest.map Prod.fst).Nodup := by
      simp only [List.map_cons, List.nodup_cons] at hnd
      exact hnd.2
    rw [applyUpserts, hup, ih (rows ++ [(bid, pr.1, pr.2)]) bid hdis2 hndt]
    simp

lemma filter_eq_bid_of_append (rows : List (Nat × Nat × Nat)) (bid : Nat)
    (l : List (Nat × Nat)) (hrows : ∀ r ∈ rows, r.1 ≠ bid) :
    ((rows ++ l.map (fun pr => (bid, pr.1, pr.2))).filter (fun r => r.1 == bid))
      = l.map (fun pr => (bid, pr.1, pr.2)) := by
  rw [List.filter_append]
  have h1 : rows.filter (fun r => r.1 == bid) = [] := by
    rw [List.filter_eq_nil_iff]
    intro r hr
    simpa using hrows r hr
  have h2 : (l.map (fun pr => (bid, pr.1, pr.2))).filter (fun r => r.1 == bid)
      = l.map (fun pr => (bid, pr.1, pr.2)) := by
    rw [List.filter_eq_self]
    intro r hr
    obtain ⟨pr, hpr, rfl⟩ := List.mem_map.mp hr
    simp
  rw [h1, h2, List.nil_append]

lemma mem_base_ne_bid (rows : List (Nat × Nat × Nat)) (bid : Nat) :
    ∀ r ∈ rows.filter (fun r => r.1 != bid), r.1 ≠ bid := by
  intro r hr
  have := List.of_mem_filter hr
  simpa using this

lemma enum_map_trim (names : List String) :
    names.enum.map (fun pr => jsTrim pr.2) = names.map (fun nm => jsTrim nm) := by
  rw [show (fun pr : Nat × String => jsTrim pr.2)
        = (fun nm : String => jsTrim nm) ∘ Prod.snd from rfl,
    ← List.map_map, List.enum_map_snd]

/-- C5: relinking authors fully replaces the prior author linkage of the
book while leaving rows of other books untouched; with a well-formed
authors table, all names non-empty after trimming and pairwise-distinct
trimmed names, the book ends with exactly one row per name, in the given
order, carrying the one-based position of the name and the id the trimmed
name resolves to, with pairwise distinct author ids; and the operation is
idempotent: a second relink with the same ordered list leaves the whole
database state unchanged. -/
theorem relinkAuthors_replace_idempotent :
    (∀ (db : DB) (bid : Nat) (names : List String),
        relinkAuthors (relinkAuthors db bid names) bid names
          = relinkAuthors db bid names) ∧
    (∀ (db : DB) (bid : Nat) (names : List String),
        (relinkAuthors db bid names).bookAuthors.filter (fun r => r.1 != bid)
          = db.bookAuthors.filter (fun r => r.1 != bid)) ∧
    (∀ (db : DB) (bid : Nat) (names : List String),
        authorsInvariant db.authors db.nextAuthorId →
        (∀ pr ∈ names.enum, ((pr.2 != "") && (jsTrim pr.2 != "")) = true) →
        (names.map (fun nm => jsTrim nm)).Nodup →
        ((relinkAuthors db bid names).bookAuthors.filter (fun r => r.1 == bid)
            = names.enum.map (fun pr =>
                (bid, lookupAuthorId (relinkAuthors db bid names).authors (jsTrim pr.2),
                  pr.1 + 1)) ∧
          (((relinkAuthors db bid names).bookAuthors.filter
              (fun r => r.1 == bid)).map (fun r => r.2.1)).Nodup)) := by
  refine ⟨relinkAuthors_idem, ?_, ?_⟩
  · intro db bid names
    rw [relinkAuthors_eq]
    exact (applyUpserts_filter_ne _ _ _).trans (filter_ne_idem _ _)
  · intro db bid names hinv hcond hnd
    have hndp : (names.enum.map (fun pr => jsTrim pr.2)).Nodup := by
      rw [enum_map_trim]; exact hnd
    have hids := resolveNames_ids_nodup names.enum db.authors db.nextAuthorId
      hinv hcond hndp
    obtain ⟨hl, -⟩ := resolveNames_resolved names.enum db.authors db.nextAuthorId hcond
    have hbase : ∀ r ∈ db.bookAuthors.filter (fun r => r.1 != bid), r.1 ≠ bid :=
      mem_base_ne_bid db.bookAuthors bid
    have happ := applyUpserts_append
      (resolveNames db.authors db.nextAuthorId names.enum).2.2
      (db.bookAuthors.filter (fun r => r.1 != bid)) bid
      (fun pr hpr r hr hrb => absurd hrb (hbase r hr)) hids
    have hba : (relinkAuthors db bid names).bookAuthors
        = db.bookAuthors.filter (fun r => r.1 != bid)
          ++ ((resolveNames db.authors db.nextAuthorId names.enum).2.2).map
              (fun pr => (bid, pr.1, pr.2)) := by
      rw [relinkAuthors_eq]
      exact happ
    have hauth : (relinkAuthors db bid names).authors
        = (resolveNames db.authors db.nextAuthorId names.enum).1 := by
      rw [relinkAuthors_eq]
    constructor
    · rw [hba, filter_eq_bid_of_append _ _ _ hbase, hl, hauth, List.map_map]
      rfl
    · rw [hba, filter_eq_bid_of_append _ _ _ hbase, List.map_map]
      exact hids

/-- Witness for the author relinking theorem: relinking the two authors
Alice and Bob onto book 3 in the empty catalog yields exactly the two rows
with positions 1 and 2. -/
theorem relinkAuthors_replace_idempotent_witness :
    (relinkAuthors db0 3 ["Alice", "Bob"]).bookAuthors.filter (fun r => r.1 == 3)
      = [(3, lookupAuthorId (relinkAuthors db0 3 ["Alice", "Bob"]).authors (jsTrim "Alice"), 1),
         (3, lookupAuthorId (relinkAuthors db0 3 ["Alice", "Bob"]).authors (jsTrim "Bob"), 2)] := by
  have h := relinkAuthors_replace_idempotent.2.2 db0 3 ["Alice", "Bob"]
    (by constructor
        · decide
        · intro p hp; cases hp)
    (by decide) (by decide)
  exact h.1

/-! ### Category relinking is additive -/

/-! ### Category relinking is additive -/

lemma getOrCreateCategory_bookCategories (db : DB) (nm : String) :
    ((getOrCreateCategory db nm).2).bookCategories = db.bookCategories := by
  unfold getOrCreateCategory
  cases hf : db.categories.find? (fun p => p.2 == nm) <;> rfl

lemma linkCategoriesGo_cons_true (db : DB) (bid : Nat) (name : String)
    (rest : List String) (cid : Nat) (db2 : DB)
    (hc : ((name != "") && (jsTrim name != "")) = true)
    (hget : getOrCreateCategory db (jsTrim name) = (cid, db2)) :
    linkCategoriesGo db bid (name :: rest) =
      linkCategoriesGo
        { db2 with bookCategories :=
            if db2.bookCategories.any (fun q => q.1 == bid && q.2 == cid) then
              db2.bookCategories
            else db2.bookCategories ++ [(bid, cid)] }
        bid rest := by
  simp only [linkCategoriesGo, hc, if_true, hget]

lemma linkCategoriesGo_cons_false (db : DB) (bid : Nat) (name : String)
    (rest : List String)
    (hc : ¬ ((name != "") && (jsTrim name != "")) = true) :
    linkCategoriesGo db bid (name :: rest) = linkCategoriesGo db bid rest := by
  simp [linkCategoriesGo, hc]

lemma linkCategoriesGo_additive :
    ∀ (names : List String) (db : DB) (bid : Nat),
      ∃ ext, (linkCategoriesGo db bid names).bookCategories
        = db.bookCategories ++ ext := by
  intro names
  induction names with
  | nil => intro db bid; exact ⟨[], by simp [linkCategoriesGo]⟩
  | cons name rest ih =>
    intro db bid
    by_cases hc : ((name != "") && (jsTrim name != "")) = true
    · cases hget : getOrCreateCategory db (jsTrim name) with
      | mk cid db2 =>
        have hbc : db2.bookCategories = db.bookCategories := by
          have h := getOrCreateCategory_bookCategories db (jsTrim name)
          rw [hget] at h
          exact h
        rw [linkCategoriesGo_cons_true db bid name rest cid db2 hc hget]
        by_cases hany : db2.bookCategories.any
            (fun q => q.1 == bid && q.2 == cid) = true
        · rw [if_pos hany]
          obtain ⟨ext, hext⟩ := ih { db2 with bookCategories := db2.bookCategories } bid
          exact ⟨ext, by simpa [hbc] using hext⟩
        · rw [if_neg hany]
          obtain ⟨ext, hext⟩ := ih
            { db2 with bookCategories := db2.bookCategories ++ [(bid, cid)] } bid
          refine ⟨(bid, cid) :: ext, ?_⟩
          simpa [hbc, List.append_assoc] using hext
    · rw [linkCategoriesGo_cons_false db bid name rest hc]
      exact ih db bid

lemma linkCategoriesGo_nodup :
    ∀ (names : List String) (db : DB) (bid : Nat),
      db.bookCategories.Nodup →
      (linkCategoriesGo db bid names).bookCategories.Nodup := by
  intro names
  induction names with
  | nil => intro db bid h; exact h
  | cons name rest ih =>
    intro db bid h
    by_cases hc : ((name != "") && (jsTrim name != "")) = true
    · cases hget : getOrCreateCategory db (jsTrim name) with
      | mk cid db2 =>
        have hbc : db2.bookCategories = db.bookCategories := by
          have hx := getOrCreateCategory_bookCategories db (jsTrim name)
          rw [hget] at hx
          exact hx
        rw [linkCategoriesGo_cons_true db bid name rest cid db2 hc hget]
        by_cases hany : db2.bookCategories.any
            (fun q => q.1 == bid && q.2 == cid) = true
        · rw [if_pos hany]
          refine ih _ bid ?_
          show db2.bookCategories.Nodup
          rw [hbc]; exact h
        · rw [if_neg hany]
          refine ih _ bid ?_
          show (db2.bookCategories ++ [(bid, cid)]).Nodup
          have hnotmem : (bid, cid) ∉ db2.bookCategories := by
            intro hmem
            apply hany
            rw [List.any_eq_true]
            exact ⟨_, hmem, by simp⟩
          rw [hbc] at hnotmem ⊢
          simp [List.nodup_append, h]
          simpa using hnotmem
    · rw [linkCategoriesGo_cons_false db bid name rest hc]
      exact ih db bid h

lemma linkCategoriesGo_member :
    ∀ (names : List String) (db : DB) (bid : Nat) (nm : String),
      nm ∈ names → ((nm != "") && (jsTrim nm != "")) = true →
      ∃ cid, (bid, cid) ∈ (linkCategoriesGo db bid names).bookCategories := by
  intro names
  induction names with
  | nil => intro db bid nm h; cases h
  | cons name rest ih =>
    intro db bid nm hmem hcnm
    rcases List.mem_cons.mp hmem with rfl | hmem
    · -- the head name is linked in this step and survives the rest by additivity
      cases hget : getOrCreateCategory db (jsTrim nm) with
      | mk cid db2 =>
        rw [linkCategoriesGo_cons_true db bid nm rest cid db2 hcnm hget]
        by_cases hany : db2.bookCategories.any
            (fun q => q.1 == bid && q.2 == cid) = true
        · rw [if_pos hany]
          obtain ⟨ext, hext⟩ := linkCategoriesGo_additive rest
            { db2 with bookCategories := db2.bookCategories } bid
          refine ⟨cid, ?_⟩
          rw [hext]
          rw [List.any_eq_true] at hany
          obtain ⟨q, hq, hqeq⟩ := hany
          rw [Bool.and_eq_true] at hqeq
          have hq1 : q.1 = bid := by simpa using hqeq.1
          have hq2 : q.2 = cid := by simpa using hqeq.2
          refine List.mem_append_left _ ?_
          have hqpair : q = (bid, cid) := Prod.ext hq1 hq2
          show (bid, cid) ∈ ({ db2 with
            bookCategories := db2.bookCategories } : DB).bookCategories
          rw [← hqpair]
          exact hq
        · rw [if_neg hany]
          obtain ⟨ext, hext⟩ := linkCategoriesGo_additive rest
            { db2 with bookCategories := db2.bookCategories ++ [(bid, cid)] } bid
          refine ⟨cid, ?_⟩
          rw [hext]
          refine List.mem_append_left _ ?_
          show (bid, cid) ∈ db2.bookCategories ++ [(bid, cid)]
          exact List.mem_append_right _ (List.mem_singleton.mpr rfl)
    · -- the name sits in the tail
      by_cases hc : ((name != "") && (jsTrim name != "")) = true
      · cases hget : getOrCreateCategory db (jsTrim name) with
        | mk cid db2 =>
          rw [linkCategoriesGo_cons_true db bid name rest cid db2 hc hget]
          exact ih _ bid nm hmem hcnm
      · rw [linkCategoriesGo_cons_false db bid name rest hc]
        exact ih db bid nm hmem hcnm

/-- C6: category relinking is additive: the prior book_categories rows are
all preserved (the new state extends the old list), no duplicate pair is
ever produced, re-linking an already linked pair is a no-op on the
associations, every truthy name of the list ends up linked to the book, and
in the concrete scenario linking B after A leaves both A and B linked. -/
theorem relinkCategories_additive :
    (∀ (db : DB) (bid : Nat) (names : List String),
        ∃ ext, (relinkCategories db bid names).bookCategories
          = db.bookCategories ++ ext) ∧
    (∀ (db : DB) (bid : Nat) (names : List String),
        db.bookCategories.Nodup →
        (relinkCategories db bid names).bookCategories.Nodup) ∧
    (∀ (db : DB) (bid : Nat) (name : String) (cid : Nat) (db2 : DB),
        ((name != "") && (jsTrim name != "")) = true →
        getOrCreateCategory db (jsTrim name) = (cid, db2) →
        (bid, cid) ∈ db.bookCategories →
        (relinkCategories db bid [name]).bookCategories = db.bookCategories) ∧
    (∀ (db : DB) (bid : Nat) (names : List String) (nm : String),
        nm ∈ names → ((nm != "") && (jsTrim nm != "")) = true →
        ∃ cid, (bid, cid) ∈ (relinkCategories db bid names).bookCategories) ∧
    ((relinkCategories (relinkCategories db0 1 ["A"]) 1 ["B"]).bookCategories
        = [(1, 1), (1, 2)]) := by
  refine ⟨?_, ?_, ?_, ?_, by decide⟩
  · intro db bid names
    exact linkCategoriesGo_additive names db bid
  · intro db bid names h
    exact linkCategoriesGo_nodup names db bid h
  · intro db bid name cid db2 hc hget hmem
    unfold relinkCategories
    have hbc : db2.bookCategories = db.bookCategories := by
      have hx := getOrCreateCategory_bookCategories db (jsTrim name)
      rw [hget] at hx
      exact hx
    rw [linkCategoriesGo_cons_true db bid name [] cid db2 hc hget]
    have hany : db2.bookCategories.any (fun q => q.1 == bid && q.2 == cid) = true := by
      rw [List.any_eq_true]
      exact ⟨(bid, cid), by rw [hbc]; exact hmem, by simp⟩
    rw [if_pos hany]
    simpa [linkCategoriesGo] using hbc
  · intro db bid names nm hmem hc
    exact linkCategoriesGo_member names db bid nm hmem hc

/-- Witness for the additive category relinking: re-linking the already
linked category A onto book 1 leaves the associations unchanged. -/
theorem relinkCategories_additive_witness :
    (relinkCategories (relinkCategories db0 1 ["A"]) 1 ["A"]).bookCategories
      = (relinkCategories db0 1 ["A"]).bookCategories :=
  relinkCategories_additive.2.2.1 (relinkCategories db0 1 ["A"]) 1 "A" 1
    ((getOrCreateCategory (relinkCategories db0 1 ["A"]) (jsTrim "A")).2)
    (by decide) (by decide) (by decide)

/-! ### Source adapters (per-item normalisation)

The network fetch and the HTML selector queries are external effects; each
adapter is modelled from the point where the decoded payload (or the texts
and attributes its selectors extracted) is available for one item.
Relative-URL resolution (the URL constructor of the custom adapter) is
passed in as a function parameter. -/

/-- A description field of the subject API payload: a plain string, an
object with an optional value field, or absent. -/
inductive OLDesc where
  | missing
  | str (s : String)
  | obj (value : Option String)
deriving DecidableEq, Repr

/-- One work of the Open Library subject payload: the fields the adapter
reads.  The authors list holds the optional name field of each author
object. -/
structure OLWork where
  title : Option String := none
  first_publish_year : Option Int := none
  description : OLDesc := OLDesc.missing
  cover_id : Option Int := none
  key : Option String := none
  authors : List (Option String) := []
  pdf_url : Option String := none
  download_url : Option String := none
deriving DecidableEq, Repr

/-- The description extraction of scrapeOpenLibrary (lines 301 to 307): a
string is taken as is, an object contributes its value field only when that
value is truthy. -/
def olDescription : OLDesc → Option String
  | OLDesc.str s => some s
  | OLDesc.obj v => if strTruthy v then v else none
  | OLDesc.missing => none

/-- The filter(Boolean) applied to a list of cleaned optional strings:
undefined and empty entries are dropped. -/
def filterTruthy (l : List (Option String)) : List String :=
  l.filterMap (fun o => if strTruthy o then o else none)

/-- One work of scrapeOpenLibrary (lines 299 to 331): the candidate built
from the work, or none when the final title check discards it. -/
def openLibraryItem (subject : String) (w : OLWork) : Option ScrapedBook :=
  let book : ScrapedBook :=
    { title := jsOrStr (cleanText w.title) "Unknown Title"
      publication_year := w.first_publish_year
      description := cleanText (olDescription w.description)
      cover_image_url :=
        if intTruthy w.cover_id then
          some ("https://covers.openlibrary.org/b/id/"
            ++ toString ((w.cover_id).getD 0) ++ "-L.jpg")
        else none
      source_url :=
        if strTruthy w.key then
          some ("https://openlibrary.org" ++ (w.key).getD "")
        else none
      language := some "English"
      authors := filterTruthy (w.authors.map cleanText)
      categories := [subject]
      pdf_url := w.pdf_url
      download_url := w.download_url }
  if (book.title != "") && (book.title != "Unknown Title") then some book else none

/-- The work loop of scrapeOpenLibrary; a work discarded by the title check
(or lost to the per-item catch) yields no candidate. -/
def scrapeOpenLibraryItems (subject : String) (works : List OLWork) :
    List ScrapedBook :=
  works.filterMap (openLibraryItem subject)

/-- One industry identifier of the Google Books payload. -/
structure GBIndustryId where
  idType : String
  identifier : Option String
deriving DecidableEq, Repr

/-- The image links object of the Google Books payload. -/
structure GBImageLinks where
  thumbnail : Option String := none
  smallThumbnail : Option String := none
deriving DecidableEq, Repr

/-- The volumeInfo object of one Google Books item: the fields the adapter
reads. -/
structure GBVolumeInfo where
  title : Option String := none
  subtitle : Option String := none
  industryIdentifiers : Option (List GBIndustryId) := none
  publishedDate : Option String := none
  publisher : Option String := none
  pageCount : Option Int := none
  language : Option String := none
  description : Option String := none
  imageLinks : Option GBImageLinks := none
  canonicalVolumeLink : Option String := none
  previewLink : Option String := none
  infoLink : Option String := none
  authors : Option (List String) := none
  categories : Option (List String) := none
deriving DecidableEq, Repr

/-- The isbn extraction of scrapeGoogleBooks (lines 366 to 371): the
ISBN_13 identifier is preferred, falling back to ISBN_10 under JavaScript
truthiness. -/
def gbIsbn (ids : Option (List GBIndustryId)) : Option String :=
  match ids with
  | none => none
  | some l =>
    jsOrOpt ((l.find? (fun r => r.idType == "ISBN_13")).bind (fun r => r.identifier))
      ((l.find? (fun r => r.idType == "ISBN_10")).bind (fun r => r.identifier))

/-- One item of scrapeGoogleBooks (lines 361 to 397). -/
def googleBooksItem (v : GBVolumeInfo) : Option ScrapedBook :=
  let book : ScrapedBook :=
    { title := jsOrStr (cleanText v.title) "Unknown Title"
      subtitle := cleanText v.subtitle
      isbn := gbIsbn v.industryIdentifiers
      publication_year :=
        if strTruthy v.publishedDate then extractYear v.publishedDate else none
      publisher := cleanText v.publisher
      pages := v.pageCount
      language := some (jsOrStr v.language "en")
      description := cleanText v.description
      cover_image_url :=
        jsOrOpt (v.imageLinks.bind (fun l => l.thumbnail))
          (v.imageLinks.bind (fun l => l.smallThumbnail))
      source_url := jsOrOpt v.canonicalVolumeLink (jsOrOpt v.previewLink v.infoLink)
      authors := filterTruthy (((v.authors).getD []).map (fun a => cleanText (some a)))
      categories :=
        filterTruthy (((v.categories).getD []).map (fun c => cleanText (some c))) }
  if (book.title != "") && (book.title != "Unknown Title") then some book else none

/-- The item loop of scrapeGoogleBooks. -/
def scrapeGoogleBooksItems (items : List GBVolumeInfo) : List ScrapedBook :=
  items.filterMap googleBooksItem

/-- One listing entry of the Project Gutenberg search page: the title text,
the link attribute and the byline text the fixed selectors extract. -/
structure GutItem where
  titleText : String := ""
  linkHref : Option String := none
  subtitleText : String := ""
deriving DecidableEq, Repr

/-- The byline normalisation of scrapeProjectGutenberg (line 438): strip a
leading by word, case-insensitively together with the whitespace run that
follows it. -/
def stripLeadingBy (s : String) : String :=
  match s.toList with
  | b :: y :: c :: rest =>
    if (b.toLower == 'b') && (y.toLower == 'y') && c.isWhitespace then
      String.mk ((c :: rest).dropWhile Char.isWhitespace)
    else s
  | _ => s

/-- One entry of scrapeProjectGutenberg (lines 428 to 459). -/
def gutenbergItem (searchTerm : String) (it : GutItem) : Option ScrapedBook :=
  let title := cleanText (some it.titleText)
  let authorsText := cleanText (some it.subtitleText)
  let authors : List String :=
    match authorsText with
    | some t =>
      if t != "" then
        let nm := jsTrim (stripLeadingBy t)
        if nm != "" then [nm] else []
      else []
    | none => []
  let book : ScrapedBook :=
    { title := jsOrStr title "Unknown Title"
      source_url :=
        if strTruthy it.linkHref then
          some ("https://www.gutenberg.org" ++ (it.linkHref).getD "")
        else none
      language := some "English"
      authors := authors
      categories := [searchTerm] }
  if (book.title != "") && (book.title != "Unknown Title") then some book else none

/-- The entry loop of scrapeProjectGutenberg with the final slice to 20
candidates (line 462). -/
def scrapeProjectGutenbergItems (searchTerm : String) (items : List GutItem) :
    List ScrapedBook :=
  (items.filterMap (gutenbergItem searchTerm)).take 20

/-- The configurable selector map of the custom adapter (the
CustomSelectors interface, lines 36 to 49): container and title are
required, every other query is optional and its field is extracted only
when the query was supplied. -/
structure CustomSelectors where
  container : String
  title : String
  subtitle : Option String := none
  authors : Option String := none
  description : Option String := none
  coverImage : Option String := none
  link : Option String := none
  publisher : Option String := none
  year : Option String := none
  isbn : Option String := none
  categories : Option String := none
  pages : Option String := none
deriving DecidableEq, Repr

/-- The texts and attributes the selector queries extract from one
container element: a query that matches nothing yields empty text or a
missing attribute. -/
structure CustomItemData where
  titleText : String := ""
  subtitleText : String := ""
  descriptionText : String := ""
  imgSrc : Option String := none
  linkHref : Option String := none
  publisherText : String := ""
  yearText : String := ""
  isbnText : String := ""
  pagesText : String := ""
  authorTexts : List String := []
  categoryTexts : List String := []
deriving DecidableEq, Repr

/-- The first digit run of a string (the page-count regex of lines 548 to
550). -/
def firstDigitRunAux : List Char → Option (List Char)
  | [] => none
  | c :: rest =>
    if c.isDigit then some (c :: rest.takeWhile Char.isDigit)
    else firstDigitRunAux rest

/-- parseInt of the first digit run, or undefined when there is none. -/
def firstDigitRun (s : String) : Option Nat :=
  (firstDigitRunAux s.toList).map digitsToNat

/-- One container element of scrapeCustomWebsite (lines 492 to 593);
resolveUrl models the URL constructor resolving a relative reference
against the page url. -/
def customWebsiteItem (sel : CustomSelectors) (resolveUrl : String → String)
    (d : CustomItemData) : Option ScrapedBook :=
  let book : ScrapedBook :=
    { title := jsOrStr (cleanText (some d.titleText)) "Unknown Title"
      subtitle :=
        if sel.subtitle.isSome then cleanText (some d.subtitleText) else none
      description :=
        if sel.description.isSome then cleanText (some d.descriptionText) else none
      cover_image_url :=
        if sel.coverImage.isSome then
          match d.imgSrc with
          | some src =>
            if src != "" then
              some (if src.startsWith "http" then src else resolveUrl src)
            else none
          | none => none
        else none
      source_url :=
        if sel.link.isSome then
          match d.linkHref with
          | some href =>
            if href != "" then
              some (if href.startsWith "http" then href else resolveUrl href)
            else none
          | none => none
        else none
      publisher :=
        if sel.publisher.isSome then cleanText (some d.publisherText) else none
      publication_year :=
        if sel.year.isSome then extractYear (some d.yearText) else none
      isbn := if sel.isbn.isSome then cleanText (some d.isbnText) else none
      pages :=
        if sel.pages.isSome then (firstDigitRun d.pagesText).map (fun n => (n : Int))
        else none
      language := some "English"
      authors :=
        if sel.authors.isSome then
          filterTruthy (d.authorTexts.map (fun t => cleanText (some t)))
        else []
      categories :=
        if sel.categories.isSome then
          filterTruthy (d.categoryTexts.map (fun t => cleanText (some t)))
        else [] }
  if (book.title != "") && (book.title != "Unknown Title") then some book else none

/-- The container loop of scrapeCustomWebsite. -/
def scrapeCustomWebsiteItems (sel : CustomSelectors)
    (resolveUrl : String → String) (ds : List CustomItemData) :
    List ScrapedBook :=
  ds.filterMap (customWebsiteItem sel resolveUrl)

/-! ### The sentinel title is never yielded -/

lemma jsOrStr_unknown (t : Option String)
    (h : t = some "Unknown Title" ∨ strTruthy t = false) :
    jsOrStr t "Unknown Title" = "Unknown Title" := by
  rcases h with rfl | h
  · decide
  · cases t with
    | none => rfl
    | some s =>
      have hs : s = "" := by simpa [strTruthy] using h
      subst hs
      rfl

lemma title_of_yielded (book b : ScrapedBook)
    (h : (if (book.title != "") && (book.title != "Unknown Title") then some book
          else none) = some b) :
    b.title ≠ "Unknown Title" := by
  by_cases hc : ((book.title != "") && (book.title != "Unknown Title")) = true
  · rw [if_pos hc] at h
    injection h with h
    subst h
    rw [Bool.and_eq_true] at hc
    simpa using hc.2
  · rw [if_neg hc] at h
    cases h

lemma discarded_of_unknown (book : ScrapedBook)
    (h : book.title = "Unknown Title") :
    (if (book.title != "") && (book.title != "Unknown Title") then some book
      else none) = none := by
  rw [h]
  rfl

/-- C10: each of the four adapters assigns the sentinel Unknown Title to an
item whose cleaned title is missing or empty and then discards every item
whose title equals the sentinel; hence an external item whose genuine
cleaned title is exactly Unknown Title yields no candidate, and no
candidate yielded by any adapter ever carries the sentinel title. -/
theorem adapters_discard_unknown_title :
    (∀ (subject : String) (w : OLWork),
        cleanText w.title = some "Unknown Title" ∨ strTruthy (cleanText w.title) = false →
        openLibraryItem subject w = none) ∧
    (∀ v : GBVolumeInfo,
        cleanText v.title = some "Unknown Title" ∨ strTruthy (cleanText v.title) = false →
        googleBooksItem v = none) ∧
    (∀ (searchTerm : String) (it : GutItem),
        cleanText (some it.titleText) = some "Unknown Title" ∨
          strTruthy (cleanText (some it.titleText)) = false →
        gutenbergItem searchTerm it = none) ∧
    (∀ (sel : CustomSelectors) (resolveUrl : String → String) (d : CustomItemData),
        cleanText (some d.titleText) = some "Unknown Title" ∨
          strTruthy (cleanText (some d.titleText)) = false →
        customWebsiteItem sel resolveUrl d = none) ∧
    (∀ (subject : String) (works : List OLWork) (b : ScrapedBook),
        b ∈ scrapeOpenLibraryItems subject works → b.title ≠ "Unknown Title") ∧
    (∀ (items : List GBVolumeInfo) (b : ScrapedBook),
        b ∈ scrapeGoogleBooksItems items → b.title ≠ "Unknown Title") ∧
    (∀ (searchTerm : String) (items : List GutItem) (b : ScrapedBook),
        b ∈ scrapeProjectGutenbergItems searchTerm items → b.title ≠ "Unknown Title") ∧
    (∀ (sel : CustomSelectors) (resolveUrl : String → String)
        (ds : List CustomItemData) (b : ScrapedBook),
        b ∈ scrapeCustomWebsiteItems sel resolveUrl ds → b.title ≠ "Unknown Title") := by
  refine ⟨?_, ?_, ?_, ?_, ?_, ?_, ?_, ?_⟩
  · intro subject w h
    exact discarded_of_unknown _ (jsOrStr_unknown (cleanText w.title) h)
  · intro v h
    exact discarded_of_unknown _ (jsOrStr_unknown (cleanText v.title) h)
  · intro searchTerm it h
    exact discarded_of_unknown _ (jsOrStr_unknown (cleanText (some it.titleText)) h)
  · intro sel resolveUrl d h
    exact discarded_of_unknown _ (jsOrStr_unknown (cleanText (some d.titleText)) h)
  · intro subject works b hb
    obtain ⟨w, _, hwb⟩ := List.mem_filterMap.mp hb
    exact title_of_yielded _ b hwb
  · intro items b hb
    obtain ⟨v, _, hvb⟩ := List.mem_filterMap.mp hb
    exact title_of_yielded _ b hvb
  · intro searchTerm items b hb
    have hb2 := List.take_subset 20 _ hb
    obtain ⟨it, _, hitb⟩ := List.mem_filterMap.mp hb2
    exact title_of_yielded _ b hitb
  · intro sel resolveUrl ds b hb
    obtain ⟨d, _, hdb⟩ := List.mem_filterMap.mp hb
    exact title_of_yielded _ b hdb

/-- Witness for the sentinel-title theorem: an Open Library work whose raw
title cleans to exactly Unknown Title yields no candidate. -/
theorem adapters_discard_unknown_title_witness :
    openLibraryItem "fiction" { title := some " Unknown   Title " } = none :=
  adapters_discard_unknown_title.1 "fiction" { title := some " Unknown   Title " }
    (Or.inl (by decide))

/-! ### The ingestion orchestrator

The database steps of a run (get-or-create source, create log), the adapter
fetch, the batch save and every updateScrapingLog call are external effects
that may raise; a run environment fixes the outcome of each.  Log updates
are modelled as the patch records effectively applied by updateScrapingLog,
whose field filter skips undefined fields and drops a falsy status or
error_details (lines 164 to 191); updateScrapingLog rethrows a database
error (line 205), and scrapeAndSave awaits it with no nested try both on
the success path (line 865) and inside its catch block (lines 890 to 897),
so a failing terminal log update on the success path is handled by the
outer catch while one inside the catch escapes to the caller. -/

structure LogPatch where
  completed_at : Bool
  books_added : Option Nat := none
  books_updated : Option Nat := none
  errors : Option Nat := none
  status : Option String := none
  error_details : Option String := none
deriving DecidableEq, Repr

/-- The field filter of updateScrapingLog: status and error_details are
written only when truthy. -/
def mkLogPatch (completed_at : Bool) (books_added books_updated errors : Option Nat)
    (status : Option String) (error_details : Option String) : LogPatch :=
  { completed_at := completed_at
    books_added := books_added
    books_updated := books_updated
    errors := errors
    status :=
      match status with
      | some s => if s = "" then none else some s
      | none => none
    error_details :=
      match error_details with
      | some s => if s = "" then none else some s
      | none => none }

structure RunEnv where
  sourceResult : Except String Nat
  logIdResult : Except String Nat
  adapterResult : Except String (List ScrapedBook)
  saveResult : List ScrapedBook → Except String (Nat × Nat)
  updateOutcome : Nat → LogPatch → Except String Unit

/-- The RunResult record (the ScrapingResult interface, lines 26 to 34). -/
structure ScrapingResult where
  log_id : Nat
  source_id : Nat
  books_added : Nat
  books_updated : Nat
  errors : Nat
  status : String
  error_details : Option String := none
deriving DecidableEq, Repr

/-- The catch block of scrapeAndSave (lines 884 to 908): when the log id
variable is truthy the terminal failed patch is written first, and a raise
from that very updateScrapingLog call escapes the function; otherwise the
failed result is returned with log and source ids defaulted by the OR-zero
expressions. -/
def scrapeAndSaveCatch (env : RunEnv) (sid lid : Nat) (msg : String) :
    Except String ScrapingResult × List (Nat × LogPatch) :=
  if lid ≠ 0 then
    match env.updateOutcome lid
        (mkLogPatch true none none (some 1) (some "failed") (some msg)) with
    | Except.ok _ =>
      (Except.ok
        { log_id := lid, source_id := sid, books_added := 0, books_updated := 0,
          errors := 1, status := "failed", error_details := some msg },
       [(lid, mkLogPatch true none none (some 1) (some "failed") (some msg))])
    | Except.error msg2 => (Except.error msg2, [])
  else
    (Except.ok
      { log_id := lid, source_id := sid, books_added := 0, books_updated := 0,
        errors := 1, status := "failed", error_details := some msg },
     [])

/-- scrapeAndSave (lines 804 to 909): the outcome delivered to the caller
(a RunResult, or the exception escaping from a failing log update inside
the catch) together with the log patches applied during the run, in order.
A raise from any numbered step, including the success-path log update of
line 865, transfers control to the catch block. -/
def scrapeAndSave (env : RunEnv) :
    Except String ScrapingResult × List (Nat × LogPatch) :=
  match env.sourceResult with
  | Except.error msg =>
    (Except.ok
      { log_id := 0, source_id := 0, books_added := 0, books_updated := 0,
        errors := 1, status := "failed", error_details := some msg }, [])
  | Except.ok sid =>
    match env.logIdResult with
    | Except.error msg =>
      (Except.ok
        { log_id := 0, source_id := sid, books_added := 0, books_updated := 0,
          errors := 1, status := "failed", error_details := some msg }, [])
    | Except.ok lid =>
      match env.adapterResult with
      | Except.error msg => scrapeAndSaveCatch env sid lid msg
      | Except.ok books =>
        match env.saveResult books with
        | Except.error msg => scrapeAndSaveCatch env sid lid msg
        | Except.ok (a, u) =>
          match env.updateOutcome lid
              (mkLogPatch true (some a) (some u) none (some "completed") none) with
          | Except.ok _ =>
            (Except.ok
              { log_id := lid, source_id := sid, books_added := a,
                books_updated := u, errors := 0, status := "completed" },
             [(lid, mkLogPatch true (some a) (some u) none (some "completed") none)])
          | Except.error msg2 => scrapeAndSaveCatch env sid lid msg2

/-- A fully successful run environment for the batch scenarios. -/
def envOk (sid a u : Nat) : RunEnv :=
  { sourceResult := Except.ok sid, logIdResult := Except.ok sid,
    adapterResult := Except.ok [], saveResult := fun _ => Except.ok (a, u),
    updateOutcome := fun _ _ => Except.ok () }

/-- A run environment whose adapter raises while the log updates succeed. -/
def envBad : RunEnv :=
  { sourceResult := Except.ok 2, logIdResult := Except.ok 2,
    adapterResult := Except.error "boom", saveResult := fun _ => Except.ok (0, 0),
    updateOutcome := fun _ _ => Except.ok () }

/-- A run environment whose adapter raises and whose log updates also
raise: the terminal log update inside the catch rethrows. -/
def envCrash : RunEnv :=
  { sourceResult := Except.ok 2, logIdResult := Except.ok 2,
    adapterResult := Except.error "boom", saveResult := fun _ => Except.ok (0, 0),
    updateOutcome := fun _ _ => Except.error "log update failed" }

/-- C7 counterexample: an invocation whose adapter raises and whose
terminal log update inside the catch block also raises delivers that
exception to the caller instead of a RunResult, so a caller can receive a
raised exception. -/
theorem scrapeAndSave_exception_counterexample :
    (scrapeAndSave envCrash).1 = Except.error "log update failed" := rfl

/-- C7 amended: when every log update succeeds, each invocation returns a
RunResult with status completed or failed; an adapter or batch-save
failure whose terminal log update succeeds closes the log with one error,
status failed and the error message, and returns zero added and updated
with status failed; a fully successful run closes the log with the
counters and status completed.  However updateScrapingLog rethrows: a
failing log update inside the catch escapes to the caller with nothing
further written, and a run whose save succeeded but whose success-path log
update raises is converted by the catch into a failed result with zero
counts and the log-update error as error_details, despite the committed
save. -/
theorem scrapeAndSave_terminal_or_escape :
    (∀ env : RunEnv,
        (∀ (lid : Nat) (p : LogPatch), env.updateOutcome lid p = Except.ok ()) →
        ∃ r, (scrapeAndSave env).1 = Except.ok r ∧
          (r.status = "completed" ∨ r.status = "failed")) ∧
    (∀ (env : RunEnv) (sid lid : Nat) (msg : String),
        env.sourceResult = Except.ok sid →
        env.logIdResult = Except.ok lid →
        env.adapterResult = Except.error msg →
        lid ≠ 0 → msg ≠ "" →
        env.updateOutcome lid
          (mkLogPatch true none none (some 1) (some "failed") (some msg))
            = Except.ok () →
        scrapeAndSave env =
          (Except.ok
            { log_id := lid, source_id := sid, books_added := 0, books_updated := 0,
              errors := 1, status := "failed", error_details := some msg },
           [(lid, { completed_at := true, errors := some 1, status := some "failed",
                    error_details := some msg })])) ∧
    (∀ (env : RunEnv) (sid lid : Nat) (books : List ScrapedBook) (msg : String),
        env.sourceResult = Except.ok sid →
        env.logIdResult = Except.ok lid →
        env.adapterResult = Except.ok books →
        env.saveResult books = Except.error msg →
        lid ≠ 0 → msg ≠ "" →
        env.updateOutcome lid
          (mkLogPatch true none none (some 1) (some "failed") (some msg))
            = Except.ok () →
        scrapeAndSave env =
          (Except.ok
            { log_id := lid, source_id := sid, books_added := 0, books_updated := 0,
              errors := 1, status := "failed", error_details := some msg },
           [(lid, { completed_at := true, errors := some 1, status := some "failed",
                    error_details := some msg })])) ∧
    (∀ (env : RunEnv) (sid lid a u : Nat) (books : List ScrapedBook),
        env.sourceResult = Except.ok sid →
        env.logIdResult = Except.ok lid →
        env.adapterResult = Except.ok books →
        env.saveResult books = Except.ok (a, u) →
        env.updateOutcome lid
          (mkLogPatch true (some a) (some u) none (some "completed") none)
            = Except.ok () →
        scrapeAndSave env =
          (Except.ok
            { log_id := lid, source_id := sid, books_added := a, books_updated := u,
              errors := 0, status := "completed", error_details := none },
           [(lid, { completed_at := true, books_added := some a,
                    books_updated := some u, status := some "completed" })])) ∧
    (∀ (env : RunEnv) (sid lid : Nat) (msg msg2 : String),
        env.sourceResult = Except.ok sid →
        env.logIdResult = Except.ok lid →
        env.adapterResult = Except.error msg →
        lid ≠ 0 →
        env.updateOutcome lid
          (mkLogPatch true none none (some 1) (some "failed") (some msg))
            = Except.error msg2 →
        scrapeAndSave env = (Except.error msg2, [])) ∧
    (∀ (env : RunEnv) (sid lid a u : Nat) (books : List ScrapedBook)
        (msg2 : String),
        env.sourceResult = Except.ok sid →
        env.logIdResult = Except.ok lid →
        env.adapterResult = Except.ok books →
        env.saveResult books = Except.ok (a, u) →
        lid ≠ 0 → msg2 ≠ "" →
        env.updateOutcome lid
          (mkLogPatch true (some a) (some u) none (some "completed") none)
            = Except.error msg2 →
        env.updateOutcome lid
          (mkLogPatch true none none (some 1) (some "failed") (some msg2))
            = Except.ok () →
        scrapeAndSave env =
          (Except.ok
            { log_id := lid, source_id := sid, books_added := 0, books_updated := 0,
              errors := 1, status := "failed", error_details := some msg2 },
           [(lid, { completed_at := true, errors := some 1, status := some "failed",
                    error_details := some msg2 })])) := by
  refine ⟨?_, ?_, ?_, ?_, ?_, ?_⟩
  · intro env hupd
    cases h1 : env.sourceResult with
    | error msg =>
      have hbody : (scrapeAndSave env).1 = Except.ok
          { log_id := 0, source_id := 0, books_added := 0, books_updated := 0,
            errors := 1, status := "failed", error_details := some msg } := by
        simp [scrapeAndSave, h1]
      exact Exists.intro _ ⟨hbody, Or.inr rfl⟩
    | ok sid =>
      cases h2 : env.logIdResult with
      | error msg =>
        have hbody : (scrapeAndSave env).1 = Except.ok
            { log_id := 0, source_id := sid, books_added := 0, books_updated := 0,
              errors := 1, status := "failed", error_details := some msg } := by
          simp [scrapeAndSave, h1, h2]
        exact Exists.intro _ ⟨hbody, Or.inr rfl⟩
      | ok lid =>
        cases h3 : env.adapterResult with
        | error msg =>
          have hbody : (scrapeAndSave env).1 = Except.ok
              { log_id := lid, source_id := sid, books_added := 0,
                books_updated := 0, errors := 1, status := "failed",
                error_details := some msg } := by
            simp only [scrapeAndSave, h1, h2, h3]
            by_cases hlid : lid ≠ 0
            · rw [scrapeAndSaveCatch, if_pos hlid, hupd lid _]
            · rw [scrapeAndSaveCatch, if_neg hlid]
          exact Exists.intro _ ⟨hbody, Or.inr rfl⟩
        | ok books =>
          cases h4 : env.saveResult books with
          | error msg =>
            have hbody : (scrapeAndSave env).1 = Except.ok
                { log_id := lid, source_id := sid, books_added := 0,
                  books_updated := 0, errors := 1, status := "failed",
                  error_details := some msg } := by
              simp only [scrapeAndSave, h1, h2, h3, h4]
              by_cases hlid : lid ≠ 0
              · rw [scrapeAndSaveCatch, if_pos hlid, hupd lid _]
              · rw [scrapeAndSaveCatch, if_neg hlid]
            exact Exists.intro _ ⟨hbody, Or.inr rfl⟩
          | ok p =>
            obtain ⟨a, u⟩ := p
            have hbody : (scrapeAndSave env).1 = Except.ok
                { log_id := lid, source_id := sid, books_added := a,
                  books_updated := u, errors := 0, status := "completed",
                  error_details := none } := by
              simp only [scrapeAndSave, h1, h2, h3, h4]
              rw [hupd lid _]
            exact Exists.intro _ ⟨hbody, Or.inl rfl⟩
  · intro env sid lid msg h1 h2 h3 hlid hmsg hupd
    simp only [scrapeAndSave, h1, h2, h3]
    rw [scrapeAndSaveCatch, if_pos hlid, hupd]
    simp [mkLogPatch, hmsg]
  · intro env sid lid books msg h1 h2 h3 h4 hlid hmsg hupd
    simp only [scrapeAndSave, h1, h2, h3, h4]
    rw [scrapeAndSaveCatch, if_pos hlid, hupd]
    simp [mkLogPatch, hmsg]
  · intro env sid lid a u books h1 h2 h3 h4 hupd
    simp only [scrapeAndSave, h1, h2, h3, h4]
    rw [hupd]
    simp [mkLogPatch]
  · intro env sid lid msg msg2 h1 h2 h3 hlid hupd
    simp only [scrapeAndSave, h1, h2, h3]
    rw [scrapeAndSaveCatch, if_pos hlid, hupd]
  · intro env sid lid a u books msg2 h1 h2 h3 h4 hlid hmsg2 hupd1 hupd2
    simp only [scrapeAndSave, h1, h2, h3, h4]
    rw [hupd1]
    show scrapeAndSaveCatch env sid lid msg2 = _
    rw [scrapeAndSaveCatch, if_pos hlid, hupd2]
    simp [mkLogPatch, hmsg2]

/-- Witness for the amended orchestrator theorem: the adapter-failing
environment with working log updates yields the failed result and the
terminal log patch. -/
theorem scrapeAndSave_terminal_or_escape_witness :
    scrapeAndSave envBad =
      (Except.ok
        { log_id := 2, source_id := 2, books_added := 0, books_updated := 0,
          errors := 1, status := "failed", error_details := some "boom" },
       [(2, { completed_at := true, errors := some 1, status := some "failed",
              error_details := some "boom" })]) :=
  scrapeAndSave_terminal_or_escape.2.1 envBad 2 2 "boom" rfl rfl rfl
    (by decide) (by decide) rfl

/-! ### The multi-source batch driver -/

/-- An event of the driver loop: starting the run of one spec, or awaiting
the politeness delay. -/
inductive TraceEv where
  | runStart (idx : Nat)
  | delayMs (ms : Nat)
deriving DecidableEq, Repr

/-- The aggregate totals computed for the final console summary (lines 967
to 977). -/
structure MultiSummary where
  totalAdded : Nat
  totalUpdated : Nat
  totalErrors : Nat
  successfulSources : Nat
  failedSources : Nat
deriving DecidableEq, Repr

/-- The entry a rejected run contributes through the per-entry catch of the
driver (lines 948 to 959). -/
def driverCatchEntry (msg : String) : ScrapingResult :=
  { log_id := 0, source_id := 0, books_added := 0, books_updated := 0,
    errors := 1, status := "failed", error_details := some msg }

/-- The result the driver records for one spec: the RunResult of a
fulfilled scrapeAndSave call, or the catch-built failed entry when the call
rejects. -/
def driverEntry (e : RunEnv) : ScrapingResult :=
  match (scrapeAndSave e).1 with
  | Except.ok r => r
  | Except.error msg => driverCatchEntry msg

/-- The source loop of scrapeMultipleSources (lines 929 to 960): each spec
runs in order inside a try block; when the run returns normally its result
is pushed and, except after the last spec, the 2000 ms delay is awaited;
when the run rejects, the catch pushes the failed entry and the loop moves
on without the delay (the delay sits inside the try, after the raise).  The
loop records the ordered trace of run starts and delays. -/
def scrapeMultipleSourcesGo : Nat → List RunEnv → List ScrapingResult × List TraceEv
  | _, [] => ([], [])
  | idx, e :: rest =>
    let tail := scrapeMultipleSourcesGo (idx + 1) rest
    match (scrapeAndSave e).1 with
    | Except.ok r =>
      (r :: tail.1,
        (TraceEv.runStart idx ::
          (if rest.isEmpty then [] else [TraceEv.delayMs 2000])) ++ tail.2)
    | Except.error msg =>
      (driverCatchEntry msg :: tail.1, TraceEv.runStart idx :: tail.2)

/-- The summary computation of the console report: fold the counters of the
returned results, count the completed entries, and report the rest of the
spec count as failed. -/
def multiSummary (specCount : Nat) (results : List ScrapingResult) : MultiSummary :=
  { totalAdded := results.foldl (fun s r => s + r.books_added) 0
    totalUpdated := results.foldl (fun s r => s + r.books_updated) 0
    totalErrors := results.foldl (fun s r => s + r.errors) 0
    successfulSources := (results.filter (fun r => r.status == "completed")).length
    failedSources :=
      specCount - (results.filter (fun r => r.status == "completed")).length }

/-- scrapeMultipleSources (lines 916 to 981): the ordered per-run results
(the return value of the function), the run/delay trace, and the summary
logged before returning. -/
def scrapeMultipleSources (envs : List RunEnv) :
    List ScrapingResult × List TraceEv × MultiSummary :=
  ((scrapeMultipleSourcesGo 0 envs).1, (scrapeMultipleSourcesGo 0 envs).2,
    multiSummary envs.length (scrapeMultipleSourcesGo 0 envs).1)

/-- The trace of a batch in which every run returns normally: one run per
spec with a single 2000 ms delay between consecutive runs and none after
the last. -/
def expectedTrace : Nat → Nat → List TraceEv
  | _, 0 => []
  | i, n + 1 =>
    TraceEv.runStart i ::
      (if n = 0 then [] else TraceEv.delayMs 2000 :: expectedTrace (i + 1) n)

/-- The index of a run-start event. -/
def runStartIdx : TraceEv → Option Nat
  | TraceEv.runStart i => some i
  | TraceEv.delayMs _ => none

lemma multiGo_results :
    ∀ (envs : List RunEnv) (idx : Nat),
      (scrapeMultipleSourcesGo idx envs).1 = envs.map driverEntry := by
  intro envs
  induction envs with
  | nil => intro idx; rfl
  | cons e rest ih =>
    intro idx
    simp only [scrapeMultipleSourcesGo, List.map_cons]
    cases h : (scrapeAndSave e).1 with
    | ok r => simp only [driverEntry, h, ih (idx + 1)]
    | error msg => simp only [driverEntry, h, ih (idx + 1)]

lemma multiGo_runStarts :
    ∀ (envs : List RunEnv) (idx : Nat),
      (scrapeMultipleSourcesGo idx envs).2.filterMap runStartIdx
        = List.range' idx envs.length := by
  intro envs
  induction envs with
  | nil => intro idx; rfl
  | cons e rest ih =>
    intro idx
    simp only [scrapeMultipleSourcesGo, List.length_cons]
    cases h : (scrapeAndSave e).1 with
    | ok r =>
      cases rest with
      | nil =>
        simp only [List.isEmpty_nil, if_true, List.filterMap]
        rfl
      | cons e2 rest2 =>
        simp only [List.isEmpty_cons, if_false]
        show (TraceEv.runStart idx :: TraceEv.delayMs 2000 ::
          (scrapeMultipleSourcesGo (idx + 1) (e2 :: rest2)).2).filterMap runStartIdx = _
        simp only [List.filterMap_cons, runStartIdx]
        rw [ih (idx + 1)]
        rfl
    | error msg =>
      show (TraceEv.runStart idx ::
        (scrapeMultipleSourcesGo (idx + 1) rest).2).filterMap runStartIdx = _
      simp only [List.filterMap_cons, runStartIdx]
      rw [ih (idx + 1)]
      rfl

lemma multiGo_trace_fulfilled :
    ∀ (envs : List RunEnv) (idx : Nat),
      (∀ e ∈ envs, ∃ r, (scrapeAndSave e).1 = Except.ok r) →
      (scrapeMultipleSourcesGo idx envs).2 = expectedTrace idx envs.length := by
  intro envs
  induction envs with
  | nil => intro idx _; rfl
  | cons e rest ih =>
    intro idx hok
    obtain ⟨r, hr⟩ := hok e (List.mem_cons_self _ _)
    simp only [scrapeMultipleSourcesGo, List.length_cons, expectedTrace, hr]
    rw [ih (idx + 1) (fun e2 he2 => hok e2 (List.mem_cons_of_mem _ he2))]
    cases rest with
    | nil => rfl
    | cons e2 rest2 => simp

lemma foldl_add_eq_sum {α : Type} (f : α → Nat) :
    ∀ (l : List α) (a : Nat), l.foldl (fun s r => s + f r) a = a + (l.map f).sum := by
  intro l
  induction l with
  | nil => intro a; simp
  | cons x rest ih =>
    intro a
    simp only [List.foldl_cons, List.map_cons, List.sum_cons]
    rw [ih (a + f x)]
    omega

/-- The driver environments of the concrete scenarios: two fulfilled runs
around one whose adapter raises and whose terminal log update also raises,
so that the scrapeAndSave promise rejects. -/
def scenarioEnvs : List RunEnv := [envOk 1 2 1, envCrash, envOk 3 0 3]

/-- C8 counterexample: in the concrete three-spec batch whose middle run
rejects, the driver awaits no delay between the second and third runs (the
delay sits inside the try and is skipped by the catch), so the trace is not
the fixed delay-between-every-consecutive-pair pattern the claim states. -/
theorem scrapeMultipleSources_delay_counterexample :
    (scrapeMultipleSources scenarioEnvs).2.1
      = [TraceEv.runStart 0, TraceEv.delayMs 2000, TraceEv.runStart 1,
         TraceEv.runStart 2] ∧
    (scrapeMultipleSources scenarioEnvs).2.1 ≠ expectedTrace 0 3 := by
  exact ⟨rfl, by decide⟩

/-- C8 amended: the driver runs the specs strictly sequentially in input
order (one run start per spec, in order, unconditionally); when every run
returns normally the trace is one run per spec with a single 2000 ms delay
between consecutive runs and none after the last, but the delay is skipped
after a run whose promise rejects; a rejected run is caught and converted
into the failed entry with log and source id 0, one error and the message,
without preventing subsequent entries; the driver returns one result per
input spec in input order, each determined solely by its own run
environment; and the logged aggregate totals equal the sums of the
returned counters together with the completed/failed split of the spec
count. -/
theorem scrapeMultipleSources_sequential_isolated :
    (∀ envs : List RunEnv, (scrapeMultipleSources envs).1.length = envs.length) ∧
    (∀ envs : List RunEnv, (scrapeMultipleSources envs).1 = envs.map driverEntry) ∧
    (∀ envs : List RunEnv,
        (scrapeMultipleSources envs).2.1.filterMap runStartIdx
          = List.range' 0 envs.length) ∧
    (∀ envs : List RunEnv,
        (∀ e ∈ envs, ∃ r, (scrapeAndSave e).1 = Except.ok r) →
        (scrapeMultipleSources envs).2.1 = expectedTrace 0 envs.length) ∧
    (∀ (e : RunEnv) (msg : String),
        (scrapeAndSave e).1 = Except.error msg →
        driverEntry e = { log_id := 0, source_id := 0, books_added := 0, books_updated := 0, errors := 1, status := "failed", error_details := some msg }) ∧
    (∀ (envs : List RunEnv) (i : Nat) (e : RunEnv),
        envs.get? i = some e →
        (scrapeMultipleSources envs).1.get? i = some (driverEntry e)) ∧
    (∀ (e : RunEnv) (sid lid : Nat) (msg : String),
        e.sourceResult = Except.ok sid →
        e.logIdResult = Except.ok lid →
        e.adapterResult = Except.error msg →
        (driverEntry e).status = "failed") ∧
    (∀ envs : List RunEnv,
        (scrapeMultipleSources envs).2.2.totalAdded
            = ((scrapeMultipleSources envs).1.map (fun r => r.books_added)).sum ∧
        (scrapeMultipleSources envs).2.2.totalUpdated
            = ((scrapeMultipleSources envs).1.map (fun r => r.books_updated)).sum ∧
        (scrapeMultipleSources envs).2.2.totalErrors
            = ((scrapeMultipleSources envs).1.map (fun r => r.errors)).sum ∧
        (scrapeMultipleSources envs).2.2.failedSources
            = envs.length - (scrapeMultipleSources envs).2.2.successfulSources) ∧
    (((scrapeMultipleSources scenarioEnvs).1.map (fun r => r.status))
        = ["completed", "failed", "completed"]) := by
  have hres : ∀ envs : List RunEnv,
      (scrapeMultipleSources envs).1 = envs.map driverEntry :=
    fun envs => multiGo_results envs 0
  refine ⟨?_, hres, ?_, ?_, ?_, ?_, ?_, ?_, by decide⟩
  · intro envs
    rw [hres envs, List.length_map]
  · intro envs
    exact multiGo_runStarts envs 0
  · intro envs hok
    exact multiGo_trace_fulfilled envs 0 hok
  · intro e msg h
    simp [driverEntry, h, driverCatchEntry]
  · intro envs i e hget
    rw [hres envs, List.get?_map, hget]
    rfl
  · intro e sid lid msg h1 h2 h3
    unfold driverEntry
    cases hout : (scrapeAndSave e).1 with
    | error msg2 => rfl
    | ok r =>
      simp only [scrapeAndSave, h1, h2, h3] at hout
      by_cases hlid : lid ≠ 0
      · rw [scrapeAndSaveCatch, if_pos hlid] at hout
        cases hupd : e.updateOutcome lid
            (mkLogPatch true none none (some 1) (some "failed") (some msg)) with
        | ok un =>
          rw [hupd] at hout
          injection hout with hout
          rw [← hout]
        | error msg2 =>
          rw [hupd] at hout
          cases hout
      · rw [scrapeAndSaveCatch, if_neg hlid] at hout
        injection hout with hout
        rw [← hout]
  · intro envs
    refine ⟨?_, ?_, ?_, rfl⟩
    · show (scrapeMultipleSources envs).1.foldl (fun s r => s + r.books_added) 0 = _
      rw [foldl_add_eq_sum, Nat.zero_add]
    · show (scrapeMultipleSources envs).1.foldl (fun s r => s + r.books_updated) 0 = _
      rw [foldl_add_eq_sum, Nat.zero_add]
    · show (scrapeMultipleSources envs).1.foldl (fun s r => s + r.errors) 0 = _
      rw [foldl_add_eq_sum, Nat.zero_add]

/-- Witness for the amended driver theorem: in the three-spec scenario
batch, entry 1 (whose run rejects) is reported through the catch with
status failed, and its result sits at position 1 of the returned list. -/
theorem scrapeMultipleSources_sequential_isolated_witness :
    (scrapeMultipleSources scenarioEnvs).1.get? 1 = some (driverEntry envCrash) ∧
    (driverEntry envCrash).status = "failed" :=
  ⟨scrapeMultipleSources_sequential_isolated.2.2.2.2.2.1 scenarioEnvs 1 envCrash rfl,
   scrapeMultipleSources_sequential_isolated.2.2.2.2.2.2.1 envCrash 2 2 "boom"
     rfl rfl rfl⟩

end Scraper
